import Mathlib

/-!
Verification of the NetRot multi-layer caching subsystem.

Shallow embedding of the cache / request-orchestration core of the NetRot
repository (src/background.js, src/ratings-store.js, src/cache-manager.js).
JavaScript values that may be `undefined`, `null` or a string are modelled as
`Option String`, with JS truthiness (`undefined`, `null` and the empty string
are falsy) captured by `jsTruthyS`.  Machine time (`Date.now()`) is passed as
an explicit `Nat` parameter; a single asynchronous operation is modelled as
running at one frozen instant.  Chrome's `chrome.storage.local` is modelled as
a total map `String → Option StoredValue` whose reads and writes always
succeed (the source catches and logs I/O errors, degrading to a miss, which
the claims do not exercise).  Title normalization models the source's ASCII
regex `[^a-z0-9]` on ASCII strings.
-/

/-- JS truthiness for string-or-absent values: `undefined`, `null` and the
empty string are falsy. -/
def jsTruthyS (v : Option String) : Bool :=
  match v with
  | none => false
  | some s => s ≠ ""

/-- JS `a || b` for string-or-absent values. -/
def jsOrS (a b : Option String) : Option String :=
  if jsTruthyS a then a else b

/-- JS `startsWith`, via the character list. -/
def jsStartsWith (s pre : String) : Bool :=
  pre.data.isPrefixOf s.data

/-- Is `needle` an infix of `hay`?  Models JS `String.prototype.includes`. -/
def listInfixB (needle : List Char) : List Char → Bool
  | [] => needle.isPrefixOf []
  | c :: rest => needle.isPrefixOf (c :: rest) || listInfixB needle rest

/-- JS `s.includes(sub)`. -/
def jsIncludes (s sub : String) : Bool :=
  listInfixB sub.data s.data

/-- JS `toLowerCase` on one character (ASCII model). -/
def jsToLowerChar (c : Char) : Char :=
  if ('A') ≤ c && c ≤ ('Z') then Char.ofNat (c.toNat + 32) else c

/-- JS whitespace (the ASCII part of `\s`). -/
def jsWsChar (c : Char) : Bool :=
  c = (' ') || c = ('\t') || c = ('\n') || c = ('\r') || c = ('\x0b') || c = ('\x0c')

/-- JS `s.trim()` (ASCII model), via the character list. -/
def jsTrim (s : String) : String :=
  ⟨((s.data.dropWhile jsWsChar).reverse.dropWhile jsWsChar).reverse⟩

/-- JS `s.toLowerCase().trim()` (ASCII model). -/
def jsLowerTrim (s : String) : String :=
  jsTrim ⟨s.data.map jsToLowerChar⟩

/-- JS `s.substring(0, 4)`, via the character list. -/
def jsTake4 (s : String) : String :=
  ⟨s.data.take 4⟩

/-- Characters kept by the source's key-normalization regex `[^a-z0-9]`. -/
def jsAlnumLower (c : Char) : Bool :=
  (('a') ≤ c && c ≤ ('z')) || (('0') ≤ c && c ≤ ('9'))

/-- `normalizeTitle` (src/background.js:253-255): lower-case, trim, strip every
character outside `[a-z0-9]`. -/
def normalizeTitle (title : String) : String :=
  ⟨(jsLowerTrim title).data.filter jsAlnumLower⟩

/-! ## Data model

`RatingsData` is the ratings data object passed to `CacheManager.set` and
returned from `get`/`performFetch`.  The nested `ratings` object of the source
(`ratings.imdb.{score,votes}`, `ratings.rottenTomatoes.score`,
`ratings.metacritic.score`) is embedded with leaf fields as `Option String`;
an absent intermediate object (read through optional chaining in the source)
is identified with all-absent leaves, which is observationally equivalent for
every function verified here. -/

/-- One element of the legacy OMDb `Ratings` array (`{Source, Value}`). -/
structure RatingPair where
  Source : String
  Value : String
deriving DecidableEq

/-- `ratings.imdb` of the unified data model. -/
structure ImdbBlock where
  score : Option String
  votes : Option String
deriving DecidableEq

/-- The nested `ratings` object of the unified data model. -/
structure RatingsBlock where
  imdb : ImdbBlock
  rottenTomatoes : Option String
  metacritic : Option String
deriving DecidableEq

/-- The ratings data object (the `data` field of a cache entry). -/
structure RatingsData where
  imdbId : Option String := none
  netflixId : Option String := none
  title : Option String := none
  normalizedTitle : Option String := none
  year : Option String := none
  ratings : RatingsBlock := ⟨⟨none, none⟩, none, none⟩
  imdbRating : Option String := none
  imdbVotes : Option String := none
  metascore : Option String := none
  Ratings : List RatingPair := []
  status : Option String := none
  completeness : Option String := none
  error : Option String := none
  fetchedAt : Option Nat := none
  enrichedAt : Option Nat := none
deriving DecidableEq

/-- A persistent cache entry wrapping the data (src/background.js:168-173). -/
structure CacheEntry where
  data : RatingsData
  timestamp : Nat
  ttl : Nat
  completeness : String
deriving DecidableEq

/-- A value stored in the memory cache or in `chrome.storage.local` under a
`rating_`-prefixed key: either a full entry (a JS object) or a pointer
(a JS string naming the master key). -/
inductive StoredValue where
  | ptr (target : String)
  | entry (e : CacheEntry)
deriving DecidableEq

/-! ## CacheManager constants and key derivation (src/background.js:49-262) -/

/-- `TTL.SUCCESS_FULL`: 7 days in milliseconds. -/
def TTL_SUCCESS_FULL : Nat := 7 * 24 * 60 * 60 * 1000

/-- `TTL.SUCCESS_PARTIAL`: 1 day in milliseconds. -/
def TTL_SUCCESS_PARTIAL : Nat := 24 * 60 * 60 * 1000

/-- `TTL.NOT_FOUND`: 1 day in milliseconds. -/
def TTL_NOT_FOUND : Nat := 24 * 60 * 60 * 1000

/-- `TTL.ERROR`: 1 hour in milliseconds. -/
def TTL_ERROR : Nat := 60 * 60 * 1000

/-- The tag distinguishing pointer strings and ID-based keys. -/
def netrotTag : String := "netrot_"

/-- The namespace tag prepended to every durable-store key. -/
def ratingTag : String := "rating_"

/-- The ID-based cache key for a video id. -/
def idKeyOf (vid : Option String) : String :=
  netrotTag ++ vid.getD ""

/-- The bare normalized-title cache key. -/
def normKeyOf (title : Option String) : String :=
  normalizeTitle (title.getD "")

/-- The title-plus-year cache key (`year.substring(0, 4)`). -/
def tyKeyOf (title year : Option String) : String :=
  normKeyOf title ++ "_" ++ jsTake4 (year.getD "")

/-- `CacheManager.getSearchKeys` (src/background.js:229-245).  Note the
source's `keys.unshift` inserts the title+year key at the front of the whole
array, ahead of the previously pushed ID-based key. -/
def getSearchKeys (vid title year : Option String) : List String :=
  let keys : List String := if jsTruthyS vid then [idKeyOf vid] else []
  let keys := if jsTruthyS title then keys ++ [normKeyOf title] else keys
  if jsTruthyS title && jsTruthyS year then tyKeyOf title year :: keys else keys

/-- `CacheManager.getPrimaryKey` (src/background.js:247-251).  The source
crashes when both the id and the title are absent; that case is never reached
by the verified flows (callers guard on a truthy title). -/
def getPrimaryKey (vid title year : Option String) : String :=
  if jsTruthyS vid then idKeyOf vid
  else if jsTruthyS year then tyKeyOf title year
  else normKeyOf title

/-- `CacheManager.getTTL` (src/background.js:257-262). -/
def cmGetTTL (d : RatingsData) : Nat :=
  if d.status = some ("error") then TTL_ERROR
  else if d.status = some ("not_found") then TTL_NOT_FOUND
  else if d.completeness = some ("full") then TTL_SUCCESS_FULL
  else TTL_SUCCESS_PARTIAL

/-- `CacheManager.isValid` on a non-pointer entry (src/background.js:264-272):
a zero timestamp is JS-falsy (invalid); a zero ttl falls back to the 7-day
default; otherwise valid iff `now - timestamp < ttl` (JS number subtraction,
hence over `Int`). -/
def isValidE (now : Nat) (e : CacheEntry) : Bool :=
  if e.timestamp = 0 then false
  else (now : Int) - (e.timestamp : Int) <
    ((if e.ttl = 0 then TTL_SUCCESS_FULL else e.ttl : Nat) : Int)

/-- `CacheManager.isValid` on any stored value: pointer strings are always
structurally valid. -/
def isValidSV (now : Nat) : StoredValue → Bool
  | .ptr _ => true
  | .entry e => isValidE now e

/-- `value.data` in JS: reading `.data` off a pointer string yields
`undefined`. -/
def dataOfSV : StoredValue → Option RatingsData
  | .ptr _ => none
  | .entry e => some e.data

/-! ## CacheManager state and operations -/

/-- Pointwise update of a string-keyed map (`Map.set` / `Map.delete` /
object-property assignment). -/
def upd (m : String → Option StoredValue) (k : String) (v : Option StoredValue) :
    String → Option StoredValue :=
  fun k' => if k' = k then v else m k'

/-- The mutable state of a `CacheManager`: the in-memory `Map` and the durable
`chrome.storage.local` contents (keys carry the `rating_` namespace tag). -/
structure CMState where
  memory : String → Option StoredValue
  storage : String → Option StoredValue

/-- The empty cache state. -/
def cmEmpty : CMState := ⟨fun _ => none, fun _ => none⟩

/-- A cache hit: the data (possibly `undefined` when the source reads `.data`
off a pointer string) and the reported source tag. -/
structure LookupResult where
  data : Option RatingsData
  source : String
deriving DecidableEq

/-- The `resolve` helper of `CacheManager.get` for a memory-phase key
(src/background.js:68-101): a `netrot_`-tagged string is followed one hop —
memory first, then storage (promoting a storage hit of the target into
memory); a dead pointer yields `null`.  A plain (untagged) string value falls
through to `isValid`, which holds for strings, and its `.data` is
`undefined`. -/
def resolveMem (st : CMState) (key : String) (now : Nat) :
    Option LookupResult × CMState :=
  match st.memory key with
  | none => (none, st)
  | some v =>
    match v with
    | .ptr t =>
      if jsStartsWith t netrotTag then
        match st.memory t with
        | some tv =>
          if isValidSV now tv then
            (some ⟨dataOfSV tv, "memory_linked"⟩, st)
          else
            match st.storage (ratingTag ++ t) with
            | some tv2 =>
              if isValidSV now tv2 then
                (some ⟨dataOfSV tv2, "storage_linked"⟩,
                  { st with memory := upd st.memory t (some tv2) })
              else (none, st)
            | none => (none, st)
        | none =>
          match st.storage (ratingTag ++ t) with
          | some tv2 =>
            if isValidSV now tv2 then
              (some ⟨dataOfSV tv2, "storage_linked"⟩,
                { st with memory := upd st.memory t (some tv2) })
            else (none, st)
          | none => (none, st)
      else
        (some ⟨none, "memory"⟩, st)
    | .entry e =>
      if isValidE now e then (some ⟨some e.data, "memory"⟩, st)
      else (none, st)

/-- The memory phase of `CacheManager.get` (src/background.js:104-114): for
each candidate key present in memory, resolve it; a failed resolution deletes
the key from memory and the loop continues. -/
def memPhase (st : CMState) (now : Nat) : List String → Option LookupResult × CMState
  | [] => (none, st)
  | k :: rest =>
    if (st.memory k).isSome then
      match resolveMem st k now with
      | (some r, st') => (some r, st')
      | (none, st') =>
        memPhase { st' with memory := upd st'.memory k none } now rest
    else memPhase st now rest

/-- The storage phase of `CacheManager.get` (src/background.js:117-147): for
each candidate key, a tagged pointer string is dereferenced one hop in
storage (caching both the target and the pointer in memory on success); a
dead pointer just moves on to the next candidate; a valid entry is promoted
into memory.  An untagged string value passes `isValid` and is returned with
`undefined` data. -/
def storPhase (st : CMState) (now : Nat) : List String → Option LookupResult × CMState
  | [] => (none, st)
  | k :: rest =>
    match st.storage (ratingTag ++ k) with
    | none => storPhase st now rest
    | some v =>
      match v with
      | .ptr t =>
        if jsStartsWith t netrotTag then
          match st.storage (ratingTag ++ t) with
          | some tv =>
            if isValidSV now tv then
              (some ⟨dataOfSV tv, "storage"⟩,
                { st with
                    memory := upd (upd st.memory t (some tv)) k (some (.ptr t)) })
            else storPhase st now rest
          | none => storPhase st now rest
        else
          (some ⟨none, "storage"⟩,
            { st with memory := upd st.memory k (some (.ptr t)) })
      | .entry e =>
        if isValidE now e then
          (some ⟨some e.data, "storage"⟩,
            { st with memory := upd st.memory k (some (.entry e)) })
        else storPhase st now rest

/-- `CacheManager.get` (src/background.js:63-150): candidate keys from
`getSearchKeys`, memory phase then storage phase. -/
def cmGet (st : CMState) (vid title year : Option String) (now : Nat) :
    Option LookupResult × CMState :=
  let keys := getSearchKeys vid title year
  match memPhase st now keys with
  | (some r, st') => (some r, st')
  | (none, st') => storPhase st' now keys

/-- The lookup result data of `CacheManager.get`: `none` is a miss,
`some d` is a hit carrying data `d` (itself `Option`al, since the source can
surface `undefined` data off a degenerate stored string). -/
def cmGetData (st : CMState) (vid title year : Option String) (now : Nat) :
    Option (Option RatingsData) :=
  ((cmGet st vid title year now).1).map LookupResult.data

/-- The `data.netflixId = videoId` attachment performed at the top of
`CacheManager.set` (src/background.js:153-155). -/
def writtenData (vid : Option String) (d : RatingsData) : RatingsData :=
  if jsTruthyS vid && !jsTruthyS d.netflixId then { d with netflixId := vid } else d

/-- One step of the secondary-key loop of `CacheManager.set`
(src/background.js:200-212): skip the master key itself; otherwise write a
pointer (ID mode) or a duplicate entry (legacy mode) to both layers. -/
def applySec (sv : StoredValue) (masterKey : String) (st : CMState) (k : String) :
    CMState :=
  if k = masterKey then st
  else
    { memory := upd st.memory k (some sv),
      storage := upd st.storage (ratingTag ++ k) (some sv) }

/-- The secondary keys pushed by `CacheManager.set` (src/background.js:183-197),
in source order: normalized title, then title+year, then the IMDb id. -/
def secKeysOf (title year : Option String) (d : RatingsData) : List String :=
  ((if jsTruthyS title then [normKeyOf title] else []) ++
    (if jsTruthyS title && jsTruthyS year then [tyKeyOf title year] else [])) ++
  (if jsTruthyS d.imdbId then [d.imdbId.getD ""] else [])

/-- The master key of `CacheManager.set` (src/background.js:157-165): the
ID-based key when a videoId is known, else the title(+year) primary key. -/
def cmMasterKey (vid title year : Option String) : String :=
  if jsTruthyS vid then idKeyOf vid else getPrimaryKey none title year

/-- The entry object built by `CacheManager.set` (src/background.js:167-173). -/
def cmEntryOf (vid title year : Option String) (d : RatingsData) (now : Nat) :
    CacheEntry :=
  ⟨writtenData vid d, now, cmGetTTL (writtenData vid d),
    if jsTruthyS year then ("full") else ("partial")⟩

/-- The value written under every secondary key: a pointer to the master key
when a videoId is known, a duplicated entry (legacy mode) otherwise. -/
def cmSecVal (vid title year : Option String) (d : RatingsData) (now : Nat) :
    StoredValue :=
  if jsTruthyS vid then .ptr (cmMasterKey vid title year)
  else .entry (cmEntryOf vid title year d now)

/-- `CacheManager.set` (src/background.js:152-220): attach the video id to the
data, compute the master key, write the full entry under the master key in
memory and storage, then process each secondary key (pointer when an id is
known, duplicated entry otherwise). -/
def cmSet (st : CMState) (vid title year : Option String) (d : RatingsData)
    (now : Nat) : CMState :=
  let masterKey := cmMasterKey vid title year
  let entry := cmEntryOf vid title year d now
  let st1 : CMState :=
    { memory := upd st.memory masterKey (some (.entry entry)),
      storage := upd st.storage (ratingTag ++ masterKey) (some (.entry entry)) }
  (secKeysOf title year (writtenData vid d)).foldl
    (applySec (cmSecVal vid title year d now) masterKey) st1

/-! ## Basic lemmas about the map model and keys -/

/-- Reading an updated map at the updated key. -/
theorem upd_same (m : String → Option StoredValue) (k : String)
    (v : Option StoredValue) : upd m k v k = v := by
  simp [upd]

/-- Reading an updated map at a different key. -/
theorem upd_other (m : String → Option StoredValue) (k : String)
    (v : Option StoredValue) (k' : String) (h : k' ≠ k) : upd m k v k' = m k' := by
  simp [upd, h]

/-- Appending to a tag yields a string starting with the tag. -/
theorem jsStartsWith_append (a b : String) : jsStartsWith (a ++ b) a = true := by
  simp only [jsStartsWith, String.data_append]
  rw [List.isPrefixOf_iff_prefix]
  exact List.prefix_append a.data b.data

/-- The ID-based key carries the `netrot_` tag. -/
theorem idKeyOf_startsWith (vid : Option String) :
    jsStartsWith (idKeyOf vid) netrotTag = true :=
  jsStartsWith_append netrotTag (vid.getD "")

/-- Left-cancellation for string concatenation (used to compare
`rating_`-namespace storage keys). -/
theorem strAppend_left_cancel {a b c : String} (h : a ++ b = a ++ c) : b = c := by
  have hd := congrArg String.data h
  simp only [String.data_append] at hd
  have := List.append_cancel_left hd
  cases b; cases c; exact congrArg String.mk this

/-! ## Claim C2: candidate key order of get() -/

/-- C2 counterexample: for videoId `81234`, title `The Matrix`, year `1999`,
the candidate key list computed by `getSearchKeys` is
`["thematrix_1999", "netrot_81234", "thematrix"]` — the title+year key comes
first, not the claimed ID-first order — and `get()` observably checks in that
order: on a cache holding one entry under the ID key and a different entry
under the title+year key, `get` returns the title+year entry, not the ID
entry the claim would require it to find first. -/
theorem C2_counterexample :
    getSearchKeys (some ("81234")) (some ("The Matrix")) (some ("1999")) =
      [("thematrix_1999"), ("netrot_81234"), ("thematrix")] ∧
    getSearchKeys (some ("81234")) (some ("The Matrix")) (some ("1999")) ≠
      [idKeyOf (some ("81234")), tyKeyOf (some ("The Matrix")) (some ("1999")),
        normKeyOf (some ("The Matrix"))] ∧
    cmGetData
      ⟨fun k => if k = ("thematrix_1999")
            then some (.entry ⟨{ imdbRating := some ("7.5") }, 10, 1000, "full"⟩)
          else if k = ("netrot_81234")
            then some (.entry ⟨{ imdbRating := some ("8.7") }, 10, 1000, "full"⟩)
          else none,
        fun _ => none⟩
      (some ("81234")) (some ("The Matrix")) (some ("1999")) 20 =
      some (some { imdbRating := some ("7.5") }) ∧
    ({ imdbRating := some ("7.5") } : RatingsData) ≠ { imdbRating := some ("8.7") } := by
  refine ⟨by decide, by decide, by decide, by decide⟩

/-- C2 (amended): for every input, `get()` checks candidate cache keys in the
order: the title+year key first (when title and year are present), then the
ID-based key (when a videoId is present), then the bare normalized-title key —
the source's `unshift` places the title+year key ahead of the ID key.
Moreover the earlier candidate wins: on a state holding distinct entries under
the title+year key and the ID key, `get` returns the title+year entry. -/
theorem C2_search_key_order :
    (∀ vid title year : Option String,
      getSearchKeys vid title year =
        (if jsTruthyS title && jsTruthyS year then [tyKeyOf title year] else []) ++
        (if jsTruthyS vid then [idKeyOf vid] else []) ++
        (if jsTruthyS title then [normKeyOf title] else [])) ∧
    (∀ (vid title year : Option String) (e₁ e₂ : CacheEntry) (now : Nat),
      jsTruthyS vid = true → jsTruthyS title = true → jsTruthyS year = true →
      isValidE now e₁ = true →
      cmGetData
        ⟨fun k => if k = tyKeyOf title year then some (.entry e₁)
            else if k = idKeyOf vid then some (.entry e₂) else none,
          fun _ => none⟩ vid title year now = some (some e₁.data)) := by
  constructor
  · intro vid title year
    cases hv : jsTruthyS vid <;> cases ht : jsTruthyS title <;>
      cases hy : jsTruthyS year <;> simp [getSearchKeys, hv, ht, hy]
  · intro vid title year e₁ e₂ now hv ht hy hval
    have hkeys : getSearchKeys vid title year =
        [tyKeyOf title year, idKeyOf vid, normKeyOf title] := by
      simp [getSearchKeys, hv, ht, hy]
    simp [cmGetData, cmGet, hkeys, memPhase, resolveMem, hval]

/-- C2 witness: a concrete instance of the precedence half of
`C2_search_key_order`. -/
theorem C2_search_key_order_witness :
    cmGetData
      ⟨fun k => if k = tyKeyOf (some ("The Matrix")) (some ("1999"))
            then some (.entry ⟨{ title := some ("The Matrix") }, 10, 1000, "full"⟩)
          else if k = idKeyOf (some ("81234"))
            then some (.entry ⟨{ title := some ("other") }, 10, 1000, "full"⟩)
          else none,
        fun _ => none⟩
      (some ("81234")) (some ("The Matrix")) (some ("1999")) 20 =
      some (some { title := some ("The Matrix") }) :=
  C2_search_key_order.2 (some ("81234")) (some ("The Matrix")) (some ("1999"))
    ⟨{ title := some ("The Matrix") }, 10, 1000, "full"⟩
    ⟨{ title := some ("other") }, 10, 1000, "full"⟩ 20
    (by decide) (by decide) (by decide) (by decide)

/-! ## Merge policy (src/background.js:526-567) -/

/-- JS truthiness for number-or-absent values (`0`, `null`, `undefined` are
falsy). -/
def jsTruthyN (v : Option Nat) : Bool :=
  match v with
  | none => false
  | some n => n ≠ 0

/-- The `getValidValue` helper of `mergeRatingsData`
(src/background.js:527-531): the fresh value when truthy and not `'N/A'`,
else the old value when truthy and not `'N/A'`, else `null`. -/
def getValidValue (newVal oldVal : Option String) : Option String :=
  if jsTruthyS newVal && newVal ≠ some ("N/A") then newVal
  else if jsTruthyS oldVal && oldVal ≠ some ("N/A") then oldVal
  else none

/-- `mergeRatingsData` (src/background.js:526-567). -/
def mergeRatingsData (existing fresh : RatingsData) (now : Nat) : RatingsData :=
  { imdbId := jsOrS fresh.imdbId existing.imdbId
    netflixId := jsOrS fresh.netflixId existing.netflixId
    title := jsOrS fresh.title existing.title
    normalizedTitle := jsOrS fresh.normalizedTitle existing.normalizedTitle
    year := jsOrS fresh.year existing.year
    ratings :=
      ⟨⟨getValidValue fresh.ratings.imdb.score existing.ratings.imdb.score,
          getValidValue fresh.ratings.imdb.votes existing.ratings.imdb.votes⟩,
        getValidValue fresh.ratings.rottenTomatoes existing.ratings.rottenTomatoes,
        getValidValue fresh.ratings.metacritic existing.ratings.metacritic⟩
    imdbRating := getValidValue fresh.imdbRating existing.imdbRating
    imdbVotes := getValidValue fresh.imdbVotes existing.imdbVotes
    metascore := getValidValue fresh.metascore existing.metascore
    Ratings := if fresh.Ratings.length > 0 then fresh.Ratings else existing.Ratings
    status := some ("success")
    completeness :=
      if fresh.completeness = some ("full") || existing.completeness = some ("full")
      then some ("full") else some ("partial")
    error := none
    fetchedAt := some now
    enrichedAt := if jsTruthyN existing.fetchedAt then some now else none }

/-- A score that is present and non-empty (not `'N/A'`), in the words of the
spec's merge policy. -/
def presentNonNA (v : Option String) : Bool :=
  jsTruthyS v && v ≠ some ("N/A")

/-! ## Claim C4: merge policy -/

/-- C4 counterexample: when the fresh imdb score is absent and the existing
imdb score is the empty marker `'N/A'`, the merged score is `null` — not "the
existing score" as the claim states. -/
theorem C4_counterexample :
    presentNonNA (RatingsData.ratings
        { ratings := ⟨⟨none, none⟩, none, none⟩ } : RatingsBlock).imdb.score = false ∧
    (mergeRatingsData { ratings := ⟨⟨some ("N/A"), none⟩, none, none⟩ }
        { ratings := ⟨⟨none, none⟩, none, none⟩ } 0).ratings.imdb.score ≠
      (RatingsData.ratings
        { ratings := ⟨⟨some ("N/A"), none⟩, none, none⟩ }).imdb.score := by
  constructor
  · decide
  · decide

/-- C4 (amended): for every pair of entries, the merge takes, for each rating
source independently, the fresh score when present and non-empty (not
`'N/A'`), otherwise the existing score when itself present and non-`'N/A'`,
otherwise `null`; identity fields prefer fresh-when-truthy else existing; the
merged completeness is `'full'` iff either input's completeness is `'full'`;
hence the merge never loses a rating source that either input validly had. -/
theorem C4_merge_policy (existing fresh : RatingsData) (now : Nat) :
    ((mergeRatingsData existing fresh now).ratings.imdb.score =
        (if presentNonNA fresh.ratings.imdb.score then fresh.ratings.imdb.score
         else if presentNonNA existing.ratings.imdb.score then
           existing.ratings.imdb.score
         else none) ∧
      (mergeRatingsData existing fresh now).ratings.rottenTomatoes =
        (if presentNonNA fresh.ratings.rottenTomatoes then
           fresh.ratings.rottenTomatoes
         else if presentNonNA existing.ratings.rottenTomatoes then
           existing.ratings.rottenTomatoes
         else none) ∧
      (mergeRatingsData existing fresh now).ratings.metacritic =
        (if presentNonNA fresh.ratings.metacritic then fresh.ratings.metacritic
         else if presentNonNA existing.ratings.metacritic then
           existing.ratings.metacritic
         else none)) ∧
    ((mergeRatingsData existing fresh now).imdbId =
        (if jsTruthyS fresh.imdbId then fresh.imdbId else existing.imdbId) ∧
      (mergeRatingsData existing fresh now).netflixId =
        (if jsTruthyS fresh.netflixId then fresh.netflixId else existing.netflixId) ∧
      (mergeRatingsData existing fresh now).title =
        (if jsTruthyS fresh.title then fresh.title else existing.title) ∧
      (mergeRatingsData existing fresh now).year =
        (if jsTruthyS fresh.year then fresh.year else existing.year)) ∧
    ((mergeRatingsData existing fresh now).completeness = some ("full") ↔
      (fresh.completeness = some ("full") ∨
        existing.completeness = some ("full"))) ∧
    ((presentNonNA existing.ratings.imdb.score = true ∨
        presentNonNA fresh.ratings.imdb.score = true) →
      presentNonNA (mergeRatingsData existing fresh now).ratings.imdb.score = true) ∧
    ((presentNonNA existing.ratings.rottenTomatoes = true ∨
        presentNonNA fresh.ratings.rottenTomatoes = true) →
      presentNonNA (mergeRatingsData existing fresh now).ratings.rottenTomatoes
        = true) ∧
    ((presentNonNA existing.ratings.metacritic = true ∨
        presentNonNA fresh.ratings.metacritic = true) →
      presentNonNA (mergeRatingsData existing fresh now).ratings.metacritic
        = true) := by
  simp only [mergeRatingsData, getValidValue, presentNonNA, jsOrS]
  refine ⟨⟨?_, ?_, ?_⟩, ⟨?_, ?_, ?_, ?_⟩, ?_, ?_, ?_, ?_⟩ <;>
    first
      | trivial
      | (split_ifs <;> simp_all)

/-- C4 witness: the spec's own example — existing has imdb=7.0 and no RT
score, fresh has no imdb score and rt=90%; the merge keeps both sources. -/
theorem C4_merge_policy_witness :
    presentNonNA (mergeRatingsData
        { ratings := ⟨⟨some ("7.0"), none⟩, none, none⟩, completeness := some ("full") }
        { ratings := ⟨⟨none, none⟩, some ("90%"), none⟩ } 7).ratings.imdb.score
      = true ∧
    presentNonNA (mergeRatingsData
        { ratings := ⟨⟨some ("7.0"), none⟩, none, none⟩, completeness := some ("full") }
        { ratings := ⟨⟨none, none⟩, some ("90%"), none⟩ } 7).ratings.rottenTomatoes
      = true := by
  constructor
  · exact (C4_merge_policy
      { ratings := ⟨⟨some ("7.0"), none⟩, none, none⟩, completeness := some ("full") }
      { ratings := ⟨⟨none, none⟩, some ("90%"), none⟩ } 7).2.2.2.1 (Or.inl (by decide))
  · exact (C4_merge_policy
      { ratings := ⟨⟨some ("7.0"), none⟩, none, none⟩, completeness := some ("full") }
      { ratings := ⟨⟨none, none⟩, some ("90%"), none⟩ } 7).2.2.2.2.1 (Or.inr (by decide))

/-! ## Lemmas about the secondary-key write loop of `set` -/

/-- A step of the secondary loop never rewrites the master key in memory. -/
theorem secFold_memory_master (sv : StoredValue) (mk : String) :
    ∀ (ks : List String) (st : CMState),
      ((ks.foldl (applySec sv mk) st).memory mk) = st.memory mk := by
  intro ks
  induction ks with
  | nil => intro st; rfl
  | cons k rest ih =>
    intro st
    rw [List.foldl_cons, ih]
    by_cases hk : k = mk
    · simp [applySec, hk]
    · simp [applySec, hk, upd_other _ _ _ _ (Ne.symm hk)]

/-- A step of the secondary loop never rewrites the master key in storage. -/
theorem secFold_storage_master (sv : StoredValue) (mk : String) :
    ∀ (ks : List String) (st : CMState),
      ((ks.foldl (applySec sv mk) st).storage (ratingTag ++ mk)) =
        st.storage (ratingTag ++ mk) := by
  intro ks
  induction ks with
  | nil => intro st; rfl
  | cons k rest ih =>
    intro st
    rw [List.foldl_cons, ih]
    by_cases hk : k = mk
    · simp [applySec, hk]
    · have hne : ratingTag ++ mk ≠ ratingTag ++ k := by
        intro h; exact hk (strAppend_left_cancel h).symm
      simp [applySec, hk, upd, hne]

/-- The secondary loop preserves "this key already holds the secondary
value" in memory. -/
theorem secFold_memory_inv (sv : StoredValue) (mk : String) :
    ∀ (ks : List String) (st : CMState) (q : String),
      st.memory q = some sv →
      ((ks.foldl (applySec sv mk) st).memory q) = some sv := by
  intro ks
  induction ks with
  | nil => intro st q h; exact h
  | cons k rest ih =>
    intro st q h
    rw [List.foldl_cons]
    refine ih _ q ?_
    by_cases hk : k = mk
    · simpa [applySec, hk] using h
    · by_cases hq : q = k
      · simp [applySec, hk, hq, upd_same]
      · simpa [applySec, hk, upd_other _ _ _ _ hq] using h

/-- Every secondary key other than the master ends up holding the secondary
value in memory. -/
theorem secFold_memory_mem (sv : StoredValue) (mk : String) :
    ∀ (ks : List String) (st : CMState) (q : String),
      q ∈ ks → q ≠ mk →
      ((ks.foldl (applySec sv mk) st).memory q) = some sv := by
  intro ks
  induction ks with
  | nil => intro st q h; exact absurd h (List.not_mem_nil q)
  | cons k rest ih =>
    intro st q hq hne
    rw [List.foldl_cons]
    rcases List.mem_cons.1 hq with h | h
    · subst h
      refine secFold_memory_inv sv mk rest _ q ?_
      simp [applySec, hne, upd_same]
    · exact ih _ q h hne

/-- Every memory binding after the secondary loop is either the secondary
value or was already present. -/
theorem secFold_memory_cases (sv : StoredValue) (mk : String) :
    ∀ (ks : List String) (st : CMState) (q : String) (v : StoredValue),
      ((ks.foldl (applySec sv mk) st).memory q) = some v →
      v = sv ∨ st.memory q = some v := by
  intro ks
  induction ks with
  | nil => intro st q v h; exact Or.inr h
  | cons k rest ih =>
    intro st q v h
    rw [List.foldl_cons] at h
    rcases ih _ q v h with h' | h'
    · exact Or.inl h'
    · by_cases hk : k = mk
      · simp only [applySec, if_pos hk] at h'
        exact Or.inr h'
      · by_cases hq : q = k
        · simp only [applySec, if_neg hk] at h'
          rw [hq, upd_same] at h'
          exact Or.inl (Option.some_inj.1 h').symm
        · simp only [applySec, if_neg hk] at h'
          rw [upd_other _ _ _ _ hq] at h'
          exact Or.inr h'

/-- Every storage binding after the secondary loop is either the secondary
value or was already present. -/
theorem secFold_storage_cases (sv : StoredValue) (mk : String) :
    ∀ (ks : List String) (st : CMState) (p : String) (v : StoredValue),
      ((ks.foldl (applySec sv mk) st).storage p) = some v →
      v = sv ∨ st.storage p = some v := by
  intro ks
  induction ks with
  | nil => intro st p v h; exact Or.inr h
  | cons k rest ih =>
    intro st p v h
    rw [List.foldl_cons] at h
    rcases ih _ p v h with h' | h'
    · exact Or.inl h'
    · by_cases hk : k = mk
      · simp only [applySec, if_pos hk] at h'
        exact Or.inr h'
      · by_cases hp : p = ratingTag ++ k
        · simp only [applySec, if_neg hk] at h'
          rw [hp, upd_same] at h'
          exact Or.inl (Option.some_inj.1 h').symm
        · simp only [applySec, if_neg hk] at h'
          rw [upd_other _ _ _ _ hp] at h'
          exact Or.inr h'

/-- After `set`, the master key holds the full entry in memory. -/
theorem cmSet_memory_master (st : CMState) (vid title year : Option String)
    (d : RatingsData) (now : Nat) :
    (cmSet st vid title year d now).memory (cmMasterKey vid title year) =
      some (.entry (cmEntryOf vid title year d now)) := by
  unfold cmSet
  rw [secFold_memory_master]
  simp [upd_same]

/-- After `set`, the master key holds the full entry in storage. -/
theorem cmSet_storage_master (st : CMState) (vid title year : Option String)
    (d : RatingsData) (now : Nat) :
    (cmSet st vid title year d now).storage
        (ratingTag ++ cmMasterKey vid title year) =
      some (.entry (cmEntryOf vid title year d now)) := by
  unfold cmSet
  rw [secFold_storage_master]
  simp [upd_same]

/-- After `set`, every secondary key other than the master holds the
secondary value in memory. -/
theorem cmSet_memory_sec (st : CMState) (vid title year : Option String)
    (d : RatingsData) (now : Nat) (q : String)
    (hq : q ∈ secKeysOf title year (writtenData vid d))
    (hne : q ≠ cmMasterKey vid title year) :
    (cmSet st vid title year d now).memory q =
      some (cmSecVal vid title year d now) := by
  unfold cmSet
  exact secFold_memory_mem _ _ _ _ q hq hne

/-- `jsTruthyS` on an absent value. -/
@[simp] theorem jsTruthyS_none : jsTruthyS none = false := rfl

/-- The data carried by the entry that `set` writes. -/
@[simp] theorem cmEntryOf_data (vid title year : Option String) (d : RatingsData)
    (now : Nat) : (cmEntryOf vid title year d now).data = writtenData vid d := rfl

/-- After `set`, a `get` with the same identity at a time where the written
entry is still valid returns the written data — pointer path and legacy path
alike, from any starting state. -/
theorem cmSet_get_valid (st : CMState) (vid title year : Option String)
    (d : RatingsData) (now₁ now₂ : Nat)
    (ht : jsTruthyS title = true)
    (hval : isValidE now₂ (cmEntryOf vid title year d now₁) = true) :
    cmGetData (cmSet st vid title year d now₁) vid title year now₂ =
      some (some (writtenData vid d)) := by
  have hmem := cmSet_memory_master st vid title year d now₁
  cases hv : jsTruthyS vid <;> cases hy : jsTruthyS year
  · -- legacy mode, no year: the single candidate is the master key
    have hmk : cmMasterKey vid title year = normKeyOf title := by
      simp [cmMasterKey, getPrimaryKey, hv, hy]
    have hkeys : getSearchKeys vid title year = [normKeyOf title] := by
      simp [getSearchKeys, hv, ht, hy]
    rw [hmk] at hmem
    simp [cmGetData, cmGet, hkeys, memPhase, hmem, resolveMem, hval]
  · -- legacy mode with year: the first candidate is the master key
    have hmk : cmMasterKey vid title year = tyKeyOf title year := by
      simp [cmMasterKey, getPrimaryKey, hv, hy]
    have hkeys : getSearchKeys vid title year =
        [tyKeyOf title year, normKeyOf title] := by
      simp [getSearchKeys, hv, ht, hy]
    rw [hmk] at hmem
    simp [cmGetData, cmGet, hkeys, memPhase, hmem, resolveMem, hval]
  · -- id mode, no year: the first candidate is the master key
    have hmk : cmMasterKey vid title year = idKeyOf vid := by
      simp [cmMasterKey, hv]
    have hkeys : getSearchKeys vid title year =
        [idKeyOf vid, normKeyOf title] := by
      simp [getSearchKeys, hv, ht, hy]
    rw [hmk] at hmem
    simp [cmGetData, cmGet, hkeys, memPhase, hmem, resolveMem, hval]
  · -- id mode with year: first candidate is the title+year key — either it
    -- coincides with the master key or it holds a pointer to it
    have hmk : cmMasterKey vid title year = idKeyOf vid := by
      simp [cmMasterKey, hv]
    have hkeys : getSearchKeys vid title year =
        [tyKeyOf title year, idKeyOf vid, normKeyOf title] := by
      simp [getSearchKeys, hv, ht, hy]
    rw [hmk] at hmem
    by_cases hc : tyKeyOf title year = idKeyOf vid
    · rw [← hc] at hmem
      simp [cmGetData, cmGet, hkeys, memPhase, hmem, resolveMem, hval]
    · have hsec : tyKeyOf title year ∈ secKeysOf title year (writtenData vid d) := by
        simp [secKeysOf, ht, hy]
      have hptr := cmSet_memory_sec st vid title year d now₁
        (tyKeyOf title year) hsec (by rw [hmk]; exact hc)
      have hsv : cmSecVal vid title year d now₁ = .ptr (idKeyOf vid) := by
        simp [cmSecVal, hv, hmk]
      rw [hsv] at hptr
      simp [cmGetData, cmGet, hkeys, memPhase, hptr, resolveMem,
        idKeyOf_startsWith, hmem, hval, isValidSV, dataOfSV]

/-- Every TTL the source selects is positive. -/
theorem cmGetTTL_pos (d : RatingsData) : 0 < cmGetTTL d := by
  unfold cmGetTTL TTL_ERROR TTL_NOT_FOUND TTL_SUCCESS_FULL TTL_SUCCESS_PARTIAL
  split_ifs <;> norm_num

/-- Attaching the video id does not change the TTL selection. -/
theorem cmGetTTL_writtenData (vid : Option String) (d : RatingsData) :
    cmGetTTL (writtenData vid d) = cmGetTTL d := by
  unfold writtenData
  split_ifs <;> rfl

/-- Validity of the entry written by `set` at a later instant `now₂` is
exactly "the elapsed time is below the selected TTL" (for a nonzero write
time). -/
theorem cmEntryOf_valid_iff (vid title year : Option String) (d : RatingsData)
    (now₁ now₂ : Nat) (h0 : now₁ ≠ 0) :
    isValidE now₂ (cmEntryOf vid title year d now₁) =
      decide ((now₂ : Int) - (now₁ : Int) < (cmGetTTL d : Int)) := by
  have hne : cmGetTTL d ≠ 0 := (cmGetTTL_pos _).ne'
  simp [isValidE, cmEntryOf, h0, hne, cmGetTTL_writtenData]

/-! ## Claim C1: write-then-read consistency -/

/-- C1: for every identity (with a truthy title, as supplied by the message
handler) and every ratings data object, `set()` immediately followed by
`get()` with the same identity returns the written ratings data (the data as
stored, i.e. with the videoId attached as `netflixId` when it was missing) —
on the pointer path (videoId present) and on the legacy duplication path
(videoId absent) alike, from any prior cache state.  The write instant is
nonzero, as `Date.now()` always is. -/
theorem C1_set_then_get (st : CMState) (vid title year : Option String)
    (d : RatingsData) (now : Nat)
    (ht : jsTruthyS title = true) (h0 : now ≠ 0) :
    cmGetData (cmSet st vid title year d now) vid title year now =
      some (some (writtenData vid d)) := by
  apply cmSet_get_valid st vid title year d now now ht
  rw [cmEntryOf_valid_iff vid title year d now now h0]
  simp only [sub_self, decide_eq_true_eq]
  exact_mod_cast cmGetTTL_pos d

/-- C1 witness: concrete write-then-read on the pointer path and on the
legacy path. -/
theorem C1_set_then_get_witness :
    cmGetData (cmSet cmEmpty (some ("81234")) (some ("The Matrix"))
        (some ("1999")) { status := some ("success") } 5000)
      (some ("81234")) (some ("The Matrix")) (some ("1999")) 5000 =
      some (some (writtenData (some ("81234")) { status := some ("success") })) ∧
    cmGetData (cmSet cmEmpty none (some ("The Matrix"))
        (some ("1999")) { status := some ("success") } 5000)
      none (some ("The Matrix")) (some ("1999")) 5000 =
      some (some (writtenData none { status := some ("success") })) :=
  ⟨C1_set_then_get cmEmpty (some ("81234")) (some ("The Matrix")) (some ("1999"))
      { status := some ("success") } 5000 (by decide) (by decide),
    C1_set_then_get cmEmpty none (some ("The Matrix")) (some ("1999"))
      { status := some ("success") } 5000 (by decide) (by decide)⟩

/-! ## Miss direction: an expired entry is invisible to `get` -/

/-- Inversion: starting from the empty state, every memory binding written by
`set` is the master entry or the secondary value. -/
theorem cmSet_empty_memory_cases (vid title year : Option String)
    (d : RatingsData) (now : Nat) (q : String) (v : StoredValue)
    (h : (cmSet cmEmpty vid title year d now).memory q = some v) :
    v = .entry (cmEntryOf vid title year d now) ∨
      v = cmSecVal vid title year d now := by
  simp only [cmSet] at h
  rcases secFold_memory_cases _ _ _ _ _ _ h with h' | h'
  · exact Or.inr h'
  · by_cases hq : q = cmMasterKey vid title year
    · subst hq
      simp [upd] at h'
      exact Or.inl h'.symm
    · simp [upd, hq, cmEmpty] at h'

/-- Inversion: starting from the empty state, every storage binding written
by `set` is the master entry or the secondary value. -/
theorem cmSet_empty_storage_cases (vid title year : Option String)
    (d : RatingsData) (now : Nat) (p : String) (v : StoredValue)
    (h : (cmSet cmEmpty vid title year d now).storage p = some v) :
    v = .entry (cmEntryOf vid title year d now) ∨
      v = cmSecVal vid title year d now := by
  simp only [cmSet] at h
  rcases secFold_storage_cases _ _ _ _ _ _ h with h' | h'
  · exact Or.inr h'
  · by_cases hp : p = ratingTag ++ cmMasterKey vid title year
    · subst hp
      simp [upd] at h'
      exact Or.inl h'.symm
    · simp [upd, hp, cmEmpty] at h'

/-- In a state whose bindings are all a single dead entry or a tagged pointer
to a master key holding that dead entry, `resolve` always misses and leaves
the state unchanged. -/
theorem resolveMem_dead
    (m stor : String → Option StoredValue) (now : Nat) (master : String)
    (e : CacheEntry) (hdead : isValidE now e = false)
    (hmem : ∀ q v, m q = some v → v = .entry e ∨
      (v = .ptr master ∧ jsStartsWith master netrotTag = true))
    (hmaster : m master = some (.entry e) ∨ m master = none)
    (hstorm : stor (ratingTag ++ master) = some (.entry e) ∨
      stor (ratingTag ++ master) = none) :
    ∀ q, resolveMem ⟨m, stor⟩ q now = (none, ⟨m, stor⟩) := by
  intro q
  unfold resolveMem
  cases hq : m q with
  | none => simp [hq]
  | some v =>
    rcases hmem q v hq with hv | ⟨hv, hpre⟩
    · subst hv
      simp [hq, hdead]
    · subst hv
      rcases hmaster with hm | hm <;>
        rcases hstorm with hs | hs <;>
          simp [hq, hpre, hm, hs, isValidSV, hdead]

/-- In such a dead state, the memory phase of `get` misses on every candidate
key, possibly deleting dead bindings but leaving storage untouched. -/
theorem memPhase_dead
    (stor : String → Option StoredValue) (now : Nat) (master : String)
    (e : CacheEntry) (hdead : isValidE now e = false)
    (hstorm : stor (ratingTag ++ master) = some (.entry e) ∨
      stor (ratingTag ++ master) = none) :
    ∀ (keys : List String) (m : String → Option StoredValue),
      (∀ q v, m q = some v → v = .entry e ∨
        (v = .ptr master ∧ jsStartsWith master netrotTag = true)) →
      (m master = some (.entry e) ∨ m master = none) →
      ∃ m', memPhase ⟨m, stor⟩ now keys = (none, ⟨m', stor⟩) := by
  intro keys
  induction keys with
  | nil => intro m _ _; exact ⟨m, rfl⟩
  | cons k rest ih =>
    intro m hmem hmaster
    have hres := resolveMem_dead m stor now master e hdead hmem hmaster hstorm k
    by_cases hk : (m k).isSome
    · have hmem' : ∀ q v, upd m k none q = some v → v = .entry e ∨
          (v = .ptr master ∧ jsStartsWith master netrotTag = true) := by
        intro q v hq
        by_cases hqk : q = k
        · rw [hqk, upd_same] at hq; exact absurd hq (by simp)
        · rw [upd_other _ _ _ _ hqk] at hq; exact hmem q v hq
      have hmaster' : upd m k none master = some (.entry e) ∨
          upd m k none master = none := by
        by_cases hmk : master = k
        · rw [hmk, upd_same]; exact Or.inr rfl
        · rw [upd_other _ _ _ _ hmk]; exact hmaster
      obtain ⟨m', hm'⟩ := ih (upd m k none) hmem' hmaster'
      refine ⟨m', ?_⟩
      simp only [memPhase, hk, if_true, hres]
      exact hm'
    · obtain ⟨m', hm'⟩ := ih m hmem hmaster
      refine ⟨m', ?_⟩
      simp only [memPhase, hk, if_false]
      simpa using hm'

/-- In such a dead state, the storage phase of `get` misses on every
candidate key. -/
theorem storPhase_dead
    (stor : String → Option StoredValue) (now : Nat) (master : String)
    (e : CacheEntry) (hdead : isValidE now e = false)
    (hstor : ∀ p v, stor p = some v → v = .entry e ∨
      (v = .ptr master ∧ jsStartsWith master netrotTag = true))
    (hstorm : stor (ratingTag ++ master) = some (.entry e) ∨
      stor (ratingTag ++ master) = none) :
    ∀ (keys : List String) (m : String → Option StoredValue),
      (storPhase ⟨m, stor⟩ now keys).1 = none := by
  intro keys
  induction keys with
  | nil => intro m; rfl
  | cons k rest ih =>
    intro m
    cases hk : stor (ratingTag ++ k) with
    | none => simp only [storPhase, hk]; exact ih m
    | some v =>
      rcases hstor _ v hk with hv | ⟨hv, hpre⟩
      · subst hv
        simp only [storPhase, hk, hdead, if_false]
        exact ih m
      · subst hv
        rcases hstorm with hs | hs <;>
          · simp only [storPhase, hk, hpre, if_true, hs, isValidSV, hdead, if_false]
            exact ih m

/-- After `set` on an empty cache, a `get` with the same identity at a time
where the written entry has expired misses: every candidate key resolves to
the dead entry (directly or through a pointer) and is rejected. -/
theorem cmSet_get_expired (vid title year : Option String) (d : RatingsData)
    (now₁ now₂ : Nat)
    (hdead : isValidE now₂ (cmEntryOf vid title year d now₁) = false) :
    cmGetData (cmSet cmEmpty vid title year d now₁) vid title year now₂ = none := by
  have hpre : jsTruthyS vid = true →
      jsStartsWith (cmMasterKey vid title year) netrotTag = true := by
    intro hv
    simp [cmMasterKey, hv, idKeyOf_startsWith]
  have hmem : ∀ q v, (cmSet cmEmpty vid title year d now₁).memory q = some v →
      v = .entry (cmEntryOf vid title year d now₁) ∨
        (v = .ptr (cmMasterKey vid title year) ∧
          jsStartsWith (cmMasterKey vid title year) netrotTag = true) := by
    intro q v h
    rcases cmSet_empty_memory_cases vid title year d now₁ q v h with h' | h'
    · exact Or.inl h'
    · cases hv : jsTruthyS vid with
      | false => exact Or.inl (by rw [h']; simp [cmSecVal, hv])
      | true => exact Or.inr ⟨by rw [h']; simp [cmSecVal, hv], hpre hv⟩
  have hstor : ∀ p v, (cmSet cmEmpty vid title year d now₁).storage p = some v →
      v = .entry (cmEntryOf vid title year d now₁) ∨
        (v = .ptr (cmMasterKey vid title year) ∧
          jsStartsWith (cmMasterKey vid title year) netrotTag = true) := by
    intro p v h
    rcases cmSet_empty_storage_cases vid title year d now₁ p v h with h' | h'
    · exact Or.inl h'
    · cases hv : jsTruthyS vid with
      | false => exact Or.inl (by rw [h']; simp [cmSecVal, hv])
      | true => exact Or.inr ⟨by rw [h']; simp [cmSecVal, hv], hpre hv⟩
  have hmaster : (cmSet cmEmpty vid title year d now₁).memory
        (cmMasterKey vid title year) =
        some (.entry (cmEntryOf vid title year d now₁)) ∨
      (cmSet cmEmpty vid title year d now₁).memory (cmMasterKey vid title year) =
        none :=
    Or.inl (cmSet_memory_master cmEmpty vid title year d now₁)
  have hstorm : (cmSet cmEmpty vid title year d now₁).storage
        (ratingTag ++ cmMasterKey vid title year) =
        some (.entry (cmEntryOf vid title year d now₁)) ∨
      (cmSet cmEmpty vid title year d now₁).storage
        (ratingTag ++ cmMasterKey vid title year) = none :=
    Or.inl (cmSet_storage_master cmEmpty vid title year d now₁)
  obtain ⟨m', hm'⟩ := memPhase_dead (cmSet cmEmpty vid title year d now₁).storage
    now₂ (cmMasterKey vid title year) (cmEntryOf vid title year d now₁) hdead
    hstorm (getSearchKeys vid title year)
    (cmSet cmEmpty vid title year d now₁).memory hmem hmaster
  have hm'' : memPhase (cmSet cmEmpty vid title year d now₁) now₂
      (getSearchKeys vid title year) =
      (none, ⟨m', (cmSet cmEmpty vid title year d now₁).storage⟩) := hm'
  have hsp := storPhase_dead (cmSet cmEmpty vid title year d now₁).storage now₂
    (cmMasterKey vid title year) (cmEntryOf vid title year d now₁) hdead hstor
    hstorm (getSearchKeys vid title year) m'
  simp only [cmGetData, cmGet, hm'']
  simp [hsp]

/-! ## Claim C6: outcome-selected TTLs and expiry -/

/-- C6: the TTL of an entry written through `set()` is selected by outcome —
1 hour for `status:'error'`, 1 day for `status:'not_found'`, 7 days for full
successful data, 1 day for partial successful data — and, starting from an
empty cache, `get()` sees the written entry iff the elapsed time since the
write is below that TTL (write time nonzero, as `Date.now()` always is): in
particular an error entry is unreadable once 1 hour has elapsed, while a full
success entry stays readable up to 7 days. -/
theorem C6_ttl_selection_and_expiry :
    (∀ d : RatingsData, d.status = some ("error") → cmGetTTL d = TTL_ERROR) ∧
    (∀ d : RatingsData, d.status = some ("not_found") →
      cmGetTTL d = TTL_NOT_FOUND) ∧
    (∀ d : RatingsData, d.status = some ("success") →
      d.completeness = some ("full") → cmGetTTL d = TTL_SUCCESS_FULL) ∧
    (∀ d : RatingsData, d.status = some ("success") →
      d.completeness = some ("partial") → cmGetTTL d = TTL_SUCCESS_PARTIAL) ∧
    (∀ (vid title year : Option String) (d : RatingsData) (now₁ now₂ : Nat),
      jsTruthyS title = true → now₁ ≠ 0 →
      cmGetData (cmSet cmEmpty vid title year d now₁) vid title year now₂ =
        (if (now₂ : Int) - (now₁ : Int) < (cmGetTTL d : Int)
         then some (some (writtenData vid d)) else none)) := by
  refine ⟨?_, ?_, ?_, ?_, ?_⟩
  · intro d h
    simp [cmGetTTL, h]
  · intro d h
    simp [cmGetTTL, h]
  · intro d h h'
    simp [cmGetTTL, h, h']
  · intro d h h'
    simp [cmGetTTL, h, h']
  · intro vid title year d now₁ now₂ ht h0
    by_cases hlt : (now₂ : Int) - (now₁ : Int) < (cmGetTTL d : Int)
    · rw [if_pos hlt]
      refine cmSet_get_valid cmEmpty vid title year d now₁ now₂ ht ?_
      rw [cmEntryOf_valid_iff vid title year d now₁ now₂ h0]
      simpa using hlt
    · rw [if_neg hlt]
      refine cmSet_get_expired vid title year d now₁ now₂ ?_
      rw [cmEntryOf_valid_iff vid title year d now₁ now₂ h0]
      simpa using hlt

/-- C6 witness: an error entry written at time 1 is gone one hour later; a
full success entry written at time 1 is still served 6 days later. -/
theorem C6_ttl_selection_and_expiry_witness :
    cmGetTTL { status := some ("error") } = TTL_ERROR ∧
    cmGetData
      (cmSet cmEmpty (some ("81")) (some ("Dark")) (some ("2017"))
        { status := some ("error") } 1)
      (some ("81")) (some ("Dark")) (some ("2017")) (1 + TTL_ERROR) = none ∧
    cmGetData
      (cmSet cmEmpty (some ("81")) (some ("Dark")) (some ("2017"))
        { status := some ("success"), completeness := some ("full") } 1)
      (some ("81")) (some ("Dark")) (some ("2017")) (1 + 6 * 24 * 60 * 60 * 1000) =
      some (some (writtenData (some ("81"))
        { status := some ("success"), completeness := some ("full") })) := by
  refine ⟨C6_ttl_selection_and_expiry.1 _ (by decide), ?_, ?_⟩
  · have h := C6_ttl_selection_and_expiry.2.2.2.2 (some ("81")) (some ("Dark"))
      (some ("2017")) { status := some ("error") } 1 (1 + TTL_ERROR)
      (by decide) (by decide)
    rw [h]
    decide
  · have h := C6_ttl_selection_and_expiry.2.2.2.2 (some ("81")) (some ("Dark"))
      (some ("2017")) { status := some ("success"), completeness := some ("full") }
      1 (1 + 6 * 24 * 60 * 60 * 1000) (by decide) (by decide)
    rw [h]
    decide

/-! ## Claim C5: pointer resolution -/

/-- C5: pointer dereferencing in `get()` goes exactly one hop and never
surfaces an error.  (a) A tagged pointer whose target key is absent both in
memory and storage is treated as a miss for that candidate and the lookup
continues with the next candidate key.  (b) The same holds when the target
entry exists but has expired.  (c) Resolution never chains: when the
one-hop target itself holds a pointer, `get` does not follow it further
(the JS source returns that stored string's `undefined` `.data`), so a
two-pointer chain never reaches the entry behind it.  In the model `get` is
a total function returning an optional hit, so no path throws. -/
theorem C5_pointer_one_hop :
    (∀ (vid title year : Option String) (tgt : String) (e : CacheEntry) (now : Nat),
      jsTruthyS vid = true → jsTruthyS title = true → jsTruthyS year = true →
      jsStartsWith tgt netrotTag = true →
      tgt ≠ tyKeyOf title year → tgt ≠ idKeyOf vid →
      idKeyOf vid ≠ tyKeyOf title year →
      isValidE now e = true →
      cmGetData ⟨fun k => if k = tyKeyOf title year then some (.ptr tgt)
          else if k = idKeyOf vid then some (.entry e) else none,
        fun _ => none⟩ vid title year now = some (some e.data)) ∧
    (∀ (vid title year : Option String) (tgt : String) (eDead e : CacheEntry)
        (now : Nat),
      jsTruthyS vid = true → jsTruthyS title = true → jsTruthyS year = true →
      jsStartsWith tgt netrotTag = true →
      tgt ≠ tyKeyOf title year → idKeyOf vid ≠ tyKeyOf title year →
      idKeyOf vid ≠ tgt →
      isValidE now eDead = false → isValidE now e = true →
      cmGetData ⟨fun k => if k = tyKeyOf title year then some (.ptr tgt)
          else if k = tgt then some (.entry eDead)
          else if k = idKeyOf vid then some (.entry e) else none,
        fun _ => none⟩ vid title year now = some (some e.data)) ∧
    (∀ (title : Option String) (t1 t2 : String) (e : CacheEntry) (now : Nat),
      jsTruthyS title = true →
      jsStartsWith t1 netrotTag = true →
      t1 ≠ normKeyOf title →
      cmGetData ⟨fun k => if k = normKeyOf title then some (.ptr t1)
          else if k = t1 then some (.ptr t2)
          else if k = t2 then some (.entry e) else none,
        fun _ => none⟩ none title none now = some none) := by
  refine ⟨?_, ?_, ?_⟩
  · intro vid title year tgt e now hv ht hy hpre h1 h2 h3 hval
    have hkeys : getSearchKeys vid title year =
        [tyKeyOf title year, idKeyOf vid, normKeyOf title] := by
      simp [getSearchKeys, hv, ht, hy]
    simp [cmGetData, cmGet, hkeys, memPhase, resolveMem, upd, hpre, h1, h2, h3,
      hval]
  · intro vid title year tgt eDead e now hv ht hy hpre h1 h3 h4 hdead hval
    have hkeys : getSearchKeys vid title year =
        [tyKeyOf title year, idKeyOf vid, normKeyOf title] := by
      simp [getSearchKeys, hv, ht, hy]
    simp [cmGetData, cmGet, hkeys, memPhase, resolveMem, upd, hpre, h1, h3, h4,
      Ne.symm h1, hdead, hval, isValidSV]
  · intro title t1 t2 e now ht hpre h1
    have hkeys : getSearchKeys none title none = [normKeyOf title] := by
      simp [getSearchKeys, ht]
    simp [cmGetData, cmGet, hkeys, memPhase, resolveMem, upd, hpre, h1,
      isValidSV, dataOfSV]

/-- C5 witness: concrete dead-pointer fallthrough (absent target, expired
target) and a concrete unfollowed two-pointer chain. -/
theorem C5_pointer_one_hop_witness :
    cmGetData ⟨fun k => if k = tyKeyOf (some ("Alpha Beta")) (some ("2001"))
          then some (.ptr ("netrot_zz"))
        else if k = idKeyOf (some ("9"))
          then some (.entry ⟨{ title := some ("Alpha Beta") }, 10, 1000, "full"⟩)
        else none,
      fun _ => none⟩ (some ("9")) (some ("Alpha Beta")) (some ("2001")) 20 =
      some (some { title := some ("Alpha Beta") }) ∧
    cmGetData ⟨fun k => if k = tyKeyOf (some ("Alpha Beta")) (some ("2001"))
          then some (.ptr ("netrot_zz"))
        else if k = ("netrot_zz")
          then some (.entry ⟨{ title := some ("stale") }, 10, 5, "full"⟩)
        else if k = idKeyOf (some ("9"))
          then some (.entry ⟨{ title := some ("Alpha Beta") }, 10, 1000, "full"⟩)
        else none,
      fun _ => none⟩ (some ("9")) (some ("Alpha Beta")) (some ("2001")) 20 =
      some (some { title := some ("Alpha Beta") }) ∧
    cmGetData ⟨fun k => if k = normKeyOf (some ("Alpha Beta"))
          then some (.ptr ("netrot_a"))
        else if k = ("netrot_a") then some (.ptr ("netrot_b"))
        else if k = ("netrot_b")
          then some (.entry ⟨{ title := some ("unreached") }, 10, 1000, "full"⟩)
        else none,
      fun _ => none⟩ none (some ("Alpha Beta")) none 20 = some none := by
  refine ⟨?_, ?_, ?_⟩
  · exact C5_pointer_one_hop.1 (some ("9")) (some ("Alpha Beta")) (some ("2001"))
      ("netrot_zz") ⟨{ title := some ("Alpha Beta") }, 10, 1000, "full"⟩ 20
      (by decide) (by decide) (by decide) (by decide) (by decide) (by decide)
      (by decide) (by decide)
  · exact C5_pointer_one_hop.2.1 (some ("9")) (some ("Alpha Beta"))
      (some ("2001")) ("netrot_zz") ⟨{ title := some ("stale") }, 10, 5, "full"⟩
      ⟨{ title := some ("Alpha Beta") }, 10, 1000, "full"⟩ 20
      (by decide) (by decide) (by decide) (by decide) (by decide) (by decide)
      (by decide) (by decide) (by decide)
  · exact C5_pointer_one_hop.2.2 (some ("Alpha Beta")) ("netrot_a") ("netrot_b")
      ⟨{ title := some ("unreached") }, 10, 1000, "full"⟩ 20
      (by decide) (by decide) (by decide)

/-! ## External API responses and the fetch orchestrator
(src/background.js:368-567, 753-790) -/

/-- An OMDb API response object (the fields the orchestrator reads). -/
structure OmdbResponse where
  Response : String := ""
  Error : Option String := none
  imdbID : Option String := none
  Title : Option String := none
  Year : Option String := none
  imdbRating : Option String := none
  imdbVotes : Option String := none
  Metascore : Option String := none
  Ratings : List RatingPair := []
deriving DecidableEq

/-- The outcome of `fetchFromOmdb` as observed by `performFetch`: either a
response object, or a thrown transport error. -/
inductive ApiOutcome where
  | result (o : OmdbResponse)
  | thrown (msg : String)
deriving DecidableEq

/-- A response sent back by the orchestrator
(`{success, data?, source?, error?}`). -/
structure FetchResponse where
  success : Bool
  data : Option RatingsData := none
  source : Option String := none
  error : Option String := none
deriving DecidableEq

/-- `normalizeOmdbResponse` (src/background.js:753-790). -/
def normalizeOmdbResponse (o : OmdbResponse) (normalizedTitle year : Option String)
    (now : Nat) : RatingsData :=
  let rtRating := o.Ratings.find? (fun r => r.Source = ("Rotten Tomatoes"))
  { imdbId := o.imdbID
    title := o.Title
    normalizedTitle := normalizedTitle
    year := o.Year
    ratings :=
      ⟨⟨if o.imdbRating ≠ some ("N/A") then o.imdbRating else none,
          if o.imdbVotes ≠ some ("N/A") then o.imdbVotes else none⟩,
        (match rtRating with
          | some r => if r.Value ≠ "" then some r.Value else none
          | none => none),
        if o.Metascore ≠ some ("N/A") then o.Metascore else none⟩
    imdbRating := o.imdbRating
    imdbVotes := o.imdbVotes
    metascore := if o.Metascore ≠ some ("N/A") then o.Metascore else none
    Ratings := o.Ratings
    status := some ("success")
    completeness := if jsTruthyS year then some ("full") else some ("partial")
    fetchedAt := some now }

/-- `cached && cached.data && cached.data.status === 'success'`, the guard
`performFetch` uses on all fallback paths. -/
def cachedSuccess : Option LookupResult → Bool
  | some c =>
    match c.data with
    | some d => d.status = some ("success")
    | none => false
  | none => false

/-- The `catch` block of `performFetch` (src/background.js:512-517): return
the cached success entry if one exists, else a failure result; nothing is
persisted. -/
def catchResult (cached : Option LookupResult) (msg : String) : FetchResponse :=
  match cached with
  | some c =>
    if cachedSuccess (some c) then ⟨true, c.data, some c.source, none⟩
    else ⟨false, none, none, some msg⟩
  | none => ⟨false, none, none, some msg⟩

/-- The negative entry persisted on an API logical failure
(src/background.js:501-507). -/
def notFoundData (vid normalizedTitle : Option String) (o : OmdbResponse)
    (now : Nat) : RatingsData :=
  { status := some ("not_found")
    error := jsOrS o.Error (some ("Movie not found"))
    normalizedTitle := normalizedTitle
    netflixId := vid
    fetchedAt := some now }

/-- `performFetch` (src/background.js:460-521), for a configured API key and
a given API outcome: on a definitive response, normalize, attach the video
id, merge with a cached success entry if present, persist and return success;
on a logical failure, return the cached success entry if one exists, else
persist a `not_found` entry and return failure; on a thrown transport error
(or a missing title), return the cached success entry if one exists, else
return failure without persisting anything. -/
def performFetch (vid title year normalizedTitle : Option String)
    (cached : Option LookupResult) (outcome : ApiOutcome) (st : CMState)
    (now : Nat) : FetchResponse × CMState :=
  if jsTruthyS title = false then (catchResult cached ("Cannot fetch without title"), st)
  else
    match outcome with
    | .thrown msg => (catchResult cached msg, st)
    | .result o =>
      if o.Response = ("True") then
        let nd := normalizeOmdbResponse o normalizedTitle year now
        let nd := if jsTruthyS vid then { nd with netflixId := vid } else nd
        let nd :=
          match cached with
          | some c =>
            match c.data with
            | some cd =>
              if cd.status = some ("success") then mergeRatingsData cd nd now
              else nd
            | none => nd
          | none => nd
        (⟨true, some nd, some ("api"), none⟩, cmSet st vid title year nd now)
      else
        match cached with
        | some c =>
          if cachedSuccess (some c) then (⟨true, c.data, some c.source, none⟩, st)
          else
            (⟨false, none, none, jsOrS o.Error (some ("Movie not found"))⟩,
              cmSet st vid title year (notFoundData vid normalizedTitle o now) now)
        | none =>
          (⟨false, none, none, jsOrS o.Error (some ("Movie not found"))⟩,
            cmSet st vid title year (notFoundData vid normalizedTitle o now) now)

/-! ## Claim C7: failure handling of the fetch orchestrator -/

/-- C7 counterexample: on a transport failure with no cached entry, the
orchestrator returns a failure result but persists nothing — the cache state
is unchanged (still empty), contradicting "otherwise it persists a negative
entry (not_found or error) with the corresponding short TTL". -/
theorem C7_counterexample :
    (performFetch (some ("81")) (some ("Inception")) none (some ("inception"))
        none (.thrown ("NetworkError")) cmEmpty 5000).1 =
      ⟨false, none, none, some ("NetworkError")⟩ ∧
    (performFetch (some ("81")) (some ("Inception")) none (some ("inception"))
        none (.thrown ("NetworkError")) cmEmpty 5000).2 = cmEmpty ∧
    cmEmpty.storage
      (ratingTag ++ getPrimaryKey (some ("81")) (some ("Inception")) none) =
      none := by
  refine ⟨by decide, rfl, rfl⟩

/-- `writtenData` never changes the status field. -/
theorem writtenData_status (vid : Option String) (d : RatingsData) :
    (writtenData vid d).status = d.status := by
  unfold writtenData
  split_ifs <;> rfl

/-- C7 (amended): when the API reports a logical failure or throws a
transport failure, a previously cached successful entry is returned as a
success result and nothing is written; with no cached success, a logical
failure persists a `not_found` entry with the 1-day TTL and returns a
failure result, while a transport failure returns a failure result without
persisting anything. -/
theorem C7_failure_handling (vid title year nt : Option String)
    (cached : Option LookupResult) (st : CMState) (now : Nat)
    (ht : jsTruthyS title = true) :
    (∀ (msg : String) (c : LookupResult), cached = some c →
      cachedSuccess cached = true →
      performFetch vid title year nt cached (.thrown msg) st now =
        (⟨true, c.data, some c.source, none⟩, st)) ∧
    (∀ msg : String, cachedSuccess cached = false →
      performFetch vid title year nt cached (.thrown msg) st now =
        (⟨false, none, none, some msg⟩, st)) ∧
    (∀ (o : OmdbResponse) (c : LookupResult), o.Response ≠ ("True") →
      cached = some c → cachedSuccess cached = true →
      performFetch vid title year nt cached (.result o) st now =
        (⟨true, c.data, some c.source, none⟩, st)) ∧
    (∀ o : OmdbResponse, o.Response ≠ ("True") → cachedSuccess cached = false →
      (performFetch vid title year nt cached (.result o) st now).1 =
        ⟨false, none, none, jsOrS o.Error (some ("Movie not found"))⟩ ∧
      ∃ e : CacheEntry,
        (performFetch vid title year nt cached (.result o) st now).2.memory
            (cmMasterKey vid title year) = some (.entry e) ∧
        e.data.status = some ("not_found") ∧
        e.ttl = TTL_NOT_FOUND ∧
        e.timestamp = now) := by
  refine ⟨?_, ?_, ?_, ?_⟩
  · intro msg c hc hcs
    subst hc
    simp [performFetch, ht, catchResult, hcs]
  · intro msg hcs
    cases cached with
    | none => simp [performFetch, ht, catchResult]
    | some c => simp [performFetch, ht, catchResult, hcs]
  · intro o c ho hc hcs
    subst hc
    simp [performFetch, ht, ho, hcs]
  · intro o ho hcs
    have hstep : (performFetch vid title year nt cached (.result o) st now) =
        (⟨false, none, none, jsOrS o.Error (some ("Movie not found"))⟩,
          cmSet st vid title year (notFoundData vid nt o now) now) := by
      cases cached with
      | none => simp [performFetch, ht, ho]
      | some c => simp [performFetch, ht, ho, hcs]
    rw [hstep]
    refine ⟨rfl, ⟨cmEntryOf vid title year (notFoundData vid nt o now) now,
      cmSet_memory_master st vid title year (notFoundData vid nt o now) now,
      ?_, ?_, rfl⟩⟩
    · rw [cmEntryOf_data, writtenData_status]
      rfl
    · show cmGetTTL (writtenData vid (notFoundData vid nt o now)) = TTL_NOT_FOUND
      rw [cmGetTTL_writtenData]
      simp [cmGetTTL, notFoundData]

/-- C7 witness: concrete instances — a logical failure with a cached success
entry returns that entry; a logical failure with no cache persists a
`not_found` entry carrying the 1-day TTL. -/
theorem C7_failure_handling_witness :
    performFetch (some ("81")) (some ("Inception")) none (some ("inception"))
        (some ⟨some { status := some ("success"), imdbRating := some ("8.8") },
          ("storage")⟩)
        (.result { Response := ("False"), Error := some ("Movie not found!") })
        cmEmpty 5000 =
      (⟨true, some { status := some ("success"), imdbRating := some ("8.8") },
        some ("storage"), none⟩, cmEmpty) ∧
    (performFetch (some ("81")) (some ("Inception")) none (some ("inception"))
        none
        (.result { Response := ("False"), Error := some ("Movie not found!") })
        cmEmpty 5000).1 =
      ⟨false, none, none, some ("Movie not found!")⟩ := by
  constructor
  · exact (C7_failure_handling (some ("81")) (some ("Inception")) none
        (some ("inception"))
        (some ⟨some { status := some ("success"), imdbRating := some ("8.8") },
          ("storage")⟩) cmEmpty 5000 (by decide)).2.2.1
      { Response := ("False"), Error := some ("Movie not found!") }
      ⟨some { status := some ("success"), imdbRating := some ("8.8") },
        ("storage")⟩ (by decide) rfl (by decide)
  · exact ((C7_failure_handling (some ("81")) (some ("Inception")) none
        (some ("inception")) none cmEmpty 5000 (by decide)).2.2.2
      { Response := ("False"), Error := some ("Movie not found!") }
      (by decide) (by decide)).1

/-! ## Fuzzy match (src/background.js:695-748) -/

/-- One OMDb search result (the fields `findBestMatch` reads).  The source's
`Type` field is spelled `Type'` here because `Type` is reserved in Lean. -/
structure SearchResult where
  Title : String
  Year : Option String := none
  imdbID : Option String := none
  Type' : Option String := none
deriving DecidableEq

/-- Split a (trimmed) string into its whitespace-separated words, modelling
JS `split(/\s+/)` on trimmed input; the JS corner case `"".split(/\s+/) ==
[""]` is preserved. -/
def wordsAux (cur : List Char) : List Char → List String
  | [] => if cur = [] then [] else [⟨cur.reverse⟩]
  | c :: rest =>
    if jsWsChar c then
      if cur = [] then wordsAux [] rest else ⟨cur.reverse⟩ :: wordsAux [] rest
    else wordsAux (c :: cur) rest

/-- JS `s.split(/\s+/)` for trimmed strings. -/
def jsSplitWs (s : String) : List String :=
  if s = "" then [("")] else wordsAux [] s.data

/-- The similarity score of one candidate before the movie bonus
(src/background.js:704-733): exact = 100, candidate-starts-with-query = 80,
query-starts-with-candidate = 70, candidate-contains-query = 60,
query-contains-candidate = 50, else the matching-word fraction scaled by 40.
The JS number arithmetic of the word-overlap branch is embedded in `ℚ`. -/
def baseScore (normalizedOriginal : String) (r : SearchResult) : ℚ :=
  let resultTitle := jsLowerTrim r.Title
  if resultTitle = normalizedOriginal then 100
  else if jsStartsWith resultTitle normalizedOriginal then 80
  else if jsStartsWith normalizedOriginal resultTitle then 70
  else if jsIncludes resultTitle normalizedOriginal then 60
  else if jsIncludes normalizedOriginal resultTitle then 50
  else
    let originalWords := jsSplitWs normalizedOriginal
    let resultWords := jsSplitWs resultTitle
    let matchingWords := originalWords.filter (fun w => resultWords.contains w)
    ((matchingWords.length : ℚ) / (originalWords.length : ℚ)) * 40

/-- The final score: `+5` for a candidate tagged `movie` with a positive
score (src/background.js:736-738). -/
def scoreOf (normalizedOriginal : String) (r : SearchResult) : ℚ :=
  let score := baseScore normalizedOriginal r
  if r.Type' = some ("movie") ∧ 0 < score then score + 5 else score

/-- `findBestMatch` (src/background.js:695-748): keep the strictly best
scoring candidate while scanning; return it iff its score reaches 40. -/
def findBestMatch (originalTitle : String) (searchResults : List SearchResult) :
    Option SearchResult :=
  let normalizedOriginal := jsLowerTrim originalTitle
  let best := searchResults.foldl
    (fun acc r =>
      let score := scoreOf normalizedOriginal r
      if acc.2 < score then (some r, score) else acc)
    ((none : Option SearchResult), (0 : ℚ))
  if 40 ≤ best.2 then best.1 else none

/-- Scan invariant of the `findBestMatch` loop: the final accumulator is the
initial one or a scanned candidate with its score, its score only grows, and
it dominates every scanned candidate. -/
theorem findBestMatch_fold (no : String) :
    ∀ (rs : List SearchResult) (acc : Option SearchResult × ℚ),
      (rs.foldl (fun acc r =>
          let score := scoreOf no r
          if acc.2 < score then (some r, score) else acc) acc = acc ∨
        ∃ r ∈ rs,
          (rs.foldl (fun acc r =>
            let score := scoreOf no r
            if acc.2 < score then (some r, score) else acc) acc).1 = some r ∧
          (rs.foldl (fun acc r =>
            let score := scoreOf no r
            if acc.2 < score then (some r, score) else acc) acc).2 = scoreOf no r) ∧
      acc.2 ≤ (rs.foldl (fun acc r =>
          let score := scoreOf no r
          if acc.2 < score then (some r, score) else acc) acc).2 ∧
      ∀ r ∈ rs, scoreOf no r ≤ (rs.foldl (fun acc r =>
          let score := scoreOf no r
          if acc.2 < score then (some r, score) else acc) acc).2 := by
  intro rs
  induction rs with
  | nil =>
    intro acc
    exact ⟨Or.inl rfl, le_refl _, by simp⟩
  | cons r rest ih =>
    intro acc
    simp only [List.foldl_cons]
    by_cases hlt : acc.2 < scoreOf no r
    · obtain ⟨hcase, hmono, hdom⟩ := ih (some r, scoreOf no r)
      rw [if_pos hlt] at *
      refine ⟨?_, ?_, ?_⟩
      · rcases hcase with hc | ⟨r', hr', h1, h2⟩
        · exact Or.inr ⟨r, List.mem_cons_self r rest, by rw [hc], by rw [hc]⟩
        · exact Or.inr ⟨r', List.mem_cons_of_mem r hr', h1, h2⟩
      · exact le_trans (le_of_lt hlt) hmono
      · intro r' hr'
        rcases List.mem_cons.1 hr' with h | h
        · subst h; exact hmono
        · exact hdom r' h
    · obtain ⟨hcase, hmono, hdom⟩ := ih acc
      rw [if_neg hlt] at *
      refine ⟨?_, hmono, ?_⟩
      · rcases hcase with hc | ⟨r', hr', h1, h2⟩
        · exact Or.inl hc
        · exact Or.inr ⟨r', List.mem_cons_of_mem r hr', h1, h2⟩
      · intro r' hr'
        rcases List.mem_cons.1 hr' with h | h
        · subst h; exact le_trans (le_of_not_lt hlt) hmono
        · exact hdom r' h

/-! ## Claim C8: fuzzy-match scoring and selection -/

/-- C8: the fuzzy matcher scores candidates by the claimed table (exact
case-insensitive = 100, candidate-starts-with-query = 80,
query-starts-with-candidate = 70, candidate-contains-query = 60,
query-contains-candidate = 50, else word-overlap fraction scaled to at most
40), adds a fixed +5 bonus to candidates tagged `movie` with a positive score
(so a movie strictly beats a series with the same positive base score — the
"close scores" tiebreak), and selects a highest-scoring candidate iff its
score is at least 40, returning not-found otherwise.  On the spec's example
list, the exact match "The Matrix" is selected. -/
theorem C8_fuzzy_match :
    (∀ (no : String) (r : SearchResult),
      (jsLowerTrim r.Title = no → baseScore no r = 100) ∧
      (jsLowerTrim r.Title ≠ no → jsStartsWith (jsLowerTrim r.Title) no = true →
        baseScore no r = 80) ∧
      (jsLowerTrim r.Title ≠ no → jsStartsWith (jsLowerTrim r.Title) no = false →
        jsStartsWith no (jsLowerTrim r.Title) = true → baseScore no r = 70) ∧
      (jsLowerTrim r.Title ≠ no → jsStartsWith (jsLowerTrim r.Title) no = false →
        jsStartsWith no (jsLowerTrim r.Title) = false →
        jsIncludes (jsLowerTrim r.Title) no = true → baseScore no r = 60) ∧
      (jsLowerTrim r.Title ≠ no → jsStartsWith (jsLowerTrim r.Title) no = false →
        jsStartsWith no (jsLowerTrim r.Title) = false →
        jsIncludes (jsLowerTrim r.Title) no = false →
        jsIncludes no (jsLowerTrim r.Title) = true → baseScore no r = 50) ∧
      (jsLowerTrim r.Title ≠ no → jsStartsWith (jsLowerTrim r.Title) no = false →
        jsStartsWith no (jsLowerTrim r.Title) = false →
        jsIncludes (jsLowerTrim r.Title) no = false →
        jsIncludes no (jsLowerTrim r.Title) = false →
        baseScore no r =
          (((jsSplitWs no).filter
              (fun w => (jsSplitWs (jsLowerTrim r.Title)).contains w)).length : ℚ) /
            ((jsSplitWs no).length : ℚ) * 40 ∧
        baseScore no r ≤ 40)) ∧
    (∀ (no : String) (m s : SearchResult),
      m.Type' = some ("movie") → s.Type' ≠ some ("movie") →
      baseScore no m = baseScore no s → 0 < baseScore no m →
      scoreOf no s < scoreOf no m) ∧
    (∀ (orig : String) (rs : List SearchResult) (r : SearchResult),
      findBestMatch orig rs = some r →
      r ∈ rs ∧ 40 ≤ scoreOf (jsLowerTrim orig) r ∧
        ∀ r' ∈ rs, scoreOf (jsLowerTrim orig) r' ≤ scoreOf (jsLowerTrim orig) r) ∧
    (∀ (orig : String) (rs : List SearchResult),
      findBestMatch orig rs = none →
      ∀ r ∈ rs, scoreOf (jsLowerTrim orig) r < 40) ∧
    findBestMatch ("The Matrix")
      [{ Title := ("The Matrix"), Type' := some ("movie"),
          imdbID := some ("tt0133093") },
        { Title := ("The Matrix Reloaded"), Type' := some ("movie") },
        { Title := ("Matrix Revolutions"), Type' := some ("movie") }] =
      some { Title := ("The Matrix"), Type' := some ("movie"),
             imdbID := some ("tt0133093") } := by
  have htable : ∀ (no : String) (r : SearchResult),
      (jsLowerTrim r.Title = no → baseScore no r = 100) ∧
      (jsLowerTrim r.Title ≠ no → jsStartsWith (jsLowerTrim r.Title) no = true →
        baseScore no r = 80) ∧
      (jsLowerTrim r.Title ≠ no → jsStartsWith (jsLowerTrim r.Title) no = false →
        jsStartsWith no (jsLowerTrim r.Title) = true → baseScore no r = 70) ∧
      (jsLowerTrim r.Title ≠ no → jsStartsWith (jsLowerTrim r.Title) no = false →
        jsStartsWith no (jsLowerTrim r.Title) = false →
        jsIncludes (jsLowerTrim r.Title) no = true → baseScore no r = 60) ∧
      (jsLowerTrim r.Title ≠ no → jsStartsWith (jsLowerTrim r.Title) no = false →
        jsStartsWith no (jsLowerTrim r.Title) = false →
        jsIncludes (jsLowerTrim r.Title) no = false →
        jsIncludes no (jsLowerTrim r.Title) = true → baseScore no r = 50) ∧
      (jsLowerTrim r.Title ≠ no → jsStartsWith (jsLowerTrim r.Title) no = false →
        jsStartsWith no (jsLowerTrim r.Title) = false →
        jsIncludes (jsLowerTrim r.Title) no = false →
        jsIncludes no (jsLowerTrim r.Title) = false →
        baseScore no r =
          (((jsSplitWs no).filter
              (fun w => (jsSplitWs (jsLowerTrim r.Title)).contains w)).length : ℚ) /
            ((jsSplitWs no).length : ℚ) * 40 ∧
        baseScore no r ≤ 40) := by
    intro no r
    refine ⟨?_, ?_, ?_, ?_, ?_, ?_⟩
    · intro h1; simp [baseScore, h1]
    · intro h1 h2; simp [baseScore, h1, h2]
    · intro h1 h2 h3; simp [baseScore, h1, h2, h3]
    · intro h1 h2 h3 h4; simp [baseScore, h1, h2, h3, h4]
    · intro h1 h2 h3 h4 h5; simp [baseScore, h1, h2, h3, h4, h5]
    · intro h1 h2 h3 h4 h5
      have heq : baseScore no r =
          (((jsSplitWs no).filter
              (fun w => (jsSplitWs (jsLowerTrim r.Title)).contains w)).length : ℚ) /
            ((jsSplitWs no).length : ℚ) * 40 := by
        simp [baseScore, h1, h2, h3, h4, h5]
      refine ⟨heq, ?_⟩
      rw [heq]
      have hm : (((jsSplitWs no).filter
          (fun w => (jsSplitWs (jsLowerTrim r.Title)).contains w)).length : ℚ) ≤
          ((jsSplitWs no).length : ℚ) := by
        exact_mod_cast List.length_filter_le _ _
      rcases Nat.eq_zero_or_pos (jsSplitWs no).length with hz | hp
      · have hz' : (((jsSplitWs no).filter
            (fun w => (jsSplitWs (jsLowerTrim r.Title)).contains w)).length) = 0 := by
          have := List.length_filter_le
            (fun w => (jsSplitWs (jsLowerTrim r.Title)).contains w) (jsSplitWs no)
          omega
        rw [hz, hz']
        norm_num
      · have hple : (((jsSplitWs no).filter
            (fun w => (jsSplitWs (jsLowerTrim r.Title)).contains w)).length : ℚ) /
            ((jsSplitWs no).length : ℚ) ≤ 1 := by
          apply div_le_one_of_le hm
          positivity
        calc (((jsSplitWs no).filter
              (fun w => (jsSplitWs (jsLowerTrim r.Title)).contains w)).length : ℚ) /
              ((jsSplitWs no).length : ℚ) * 40 ≤ 1 * 40 := by
              exact mul_le_mul_of_nonneg_right hple (by norm_num)
          _ = 40 := by norm_num
  refine ⟨htable, ?_, ?_, ?_, ?_⟩
  · intro no m s hm hs hbase hpos
    simp only [scoreOf]
    rw [if_neg (fun hand => hs hand.1), if_pos ⟨hm, hpos⟩, ← hbase]
    linarith
  · intro orig rs r hr
    obtain ⟨hcase, -, hdom⟩ := findBestMatch_fold (jsLowerTrim orig) rs (none, 0)
    unfold findBestMatch at hr
    by_cases hge : (40:ℚ) ≤ (rs.foldl (fun acc r =>
        let score := scoreOf (jsLowerTrim orig) r
        if acc.2 < score then (some r, score) else acc)
        ((none : Option SearchResult), (0:ℚ))).2
    · rw [if_pos hge] at hr
      rcases hcase with hc | ⟨r', hr', h1, h2⟩
      · rw [hc] at hr
        exact absurd hr (by simp)
      · rw [h1] at hr
        obtain rfl : r' = r := Option.some_inj.1 hr
        refine ⟨hr', ?_, ?_⟩
        · rw [← h2]; exact hge
        · intro r'' h''
          rw [← h2]; exact hdom r'' h''
    · rw [if_neg hge] at hr
      exact absurd hr (by simp)
  · intro orig rs hnone r hr
    obtain ⟨hcase, -, hdom⟩ := findBestMatch_fold (jsLowerTrim orig) rs (none, 0)
    unfold findBestMatch at hnone
    by_cases hge : (40:ℚ) ≤ (rs.foldl (fun acc r =>
        let score := scoreOf (jsLowerTrim orig) r
        if acc.2 < score then (some r, score) else acc)
        ((none : Option SearchResult), (0:ℚ))).2
    · rw [if_pos hge] at hnone
      rcases hcase with hc | ⟨r', hr', h1, h2⟩
      · rw [hc] at hge
        norm_num at hge
      · rw [h1] at hnone
        exact absurd hnone (by simp)
    · push_neg at hge
      exact lt_of_le_of_lt (hdom r hr) hge
  · -- the concrete example, via explicit score computations
    have hs1 : scoreOf (jsLowerTrim ("The Matrix"))
        { Title := ("The Matrix"), Type' := some ("movie"),
            imdbID := some ("tt0133093") } = 105 := by
      have hb : baseScore (jsLowerTrim ("The Matrix"))
          { Title := ("The Matrix"), Type' := some ("movie"),
              imdbID := some ("tt0133093") } = 100 := by
        simp only [baseScore]
        rw [if_pos (by decide)]
      simp only [scoreOf]
      rw [hb, if_pos (by norm_num)]
      norm_num
    have hs2 : scoreOf (jsLowerTrim ("The Matrix"))
        { Title := ("The Matrix Reloaded"), Type' := some ("movie") } = 85 := by
      have hb : baseScore (jsLowerTrim ("The Matrix"))
          { Title := ("The Matrix Reloaded"), Type' := some ("movie") } = 80 := by
        simp only [baseScore]
        rw [if_neg (by decide), if_pos (by decide)]
      simp only [scoreOf]
      rw [hb, if_pos (by norm_num)]
      norm_num
    have hs3 : scoreOf (jsLowerTrim ("The Matrix"))
        { Title := ("Matrix Revolutions"), Type' := some ("movie") } = 25 := by
      have hb : baseScore (jsLowerTrim ("The Matrix"))
          { Title := ("Matrix Revolutions"), Type' := some ("movie") } = 20 := by
        simp only [baseScore]
        rw [if_neg (by decide), if_neg (by decide), if_neg (by decide),
          if_neg (by decide), if_neg (by decide)]
        rw [show (List.filter
              (fun w => (jsSplitWs (jsLowerTrim ("Matrix Revolutions"))).contains w)
              (jsSplitWs (jsLowerTrim ("The Matrix")))).length = 1 from by decide]
        rw [show (jsSplitWs (jsLowerTrim ("The Matrix"))).length = 2 from by decide]
        norm_num
      simp only [scoreOf]
      rw [hb, if_pos (by norm_num)]
      norm_num
    simp only [findBestMatch, List.foldl_cons, List.foldl_nil, hs1, hs2, hs3]
    norm_num

/-- C8 witness: instantiating the selection property on the spec's example
list (the hypothesis discharged by the theorem's own concrete conjunct): the
selected "The Matrix" is a member with score at least 40 dominating the other
candidates. -/
theorem C8_fuzzy_match_witness :
    ({ Title := ("The Matrix"), Type' := some ("movie"),
        imdbID := some ("tt0133093") } : SearchResult) ∈
      [{ Title := ("The Matrix"), Type' := some ("movie"),
          imdbID := some ("tt0133093") },
        ({ Title := ("The Matrix Reloaded"), Type' := some ("movie") } :
          SearchResult),
        { Title := ("Matrix Revolutions"), Type' := some ("movie") }] ∧
    (40:ℚ) ≤ scoreOf (jsLowerTrim ("The Matrix"))
      { Title := ("The Matrix"), Type' := some ("movie"),
          imdbID := some ("tt0133093") } :=
  have hsel := C8_fuzzy_match.2.2.1 ("The Matrix")
    [{ Title := ("The Matrix"), Type' := some ("movie"),
        imdbID := some ("tt0133093") },
      { Title := ("The Matrix Reloaded"), Type' := some ("movie") },
      { Title := ("Matrix Revolutions"), Type' := some ("movie") }]
    { Title := ("The Matrix"), Type' := some ("movie"),
        imdbID := some ("tt0133093") }
    C8_fuzzy_match.2.2.2.2
  ⟨hsel.1, hsel.2.1⟩

/-! ## Session store notification (src/ratings-store.js:171-220) -/

/-- A subscriber callback, abstracted to an identity and whether invoking it
throws. -/
structure Callback where
  id : Nat
  throws : Bool
deriving DecidableEq

/-- `Set.add`: append the key unless already present (JS sets preserve
insertion order). -/
def pushUnique (l : List String) (k : String) : List String :=
  if l.contains k then l else l ++ [k]

/-- The de-duplicated applicable keys of `RatingsStore.notify`
(src/ratings-store.js:209-213), in insertion order: the explicit key, then
the `netrot_` id key, the IMDb id, and the normalized title when truthy. -/
def keysToNotify (key : String) (d : RatingsData) : List String :=
  let l := [key]
  let l := if jsTruthyS d.netflixId
    then pushUnique l (netrotTag ++ d.netflixId.getD "") else l
  let l := if jsTruthyS d.imdbId then pushUnique l (d.imdbId.getD "") else l
  if jsTruthyS d.normalizedTitle then pushUnique l (d.normalizedTitle.getD "") else l

/-- Run a key's callbacks in subscription order.  `catching` transcribes the
`try { cb(data) } catch (e) { console.error(e) }` of the source: with it, a
throwing callback is absorbed and the loop continues; without it, the throw
would abort the remaining invocations.  Returns the ids actually invoked. -/
def runCallbacks (catching : Bool) : List Callback → List Nat
  | [] => []
  | cb :: rest =>
    cb.id :: (if !catching && cb.throws then [] else runCallbacks catching rest)

/-- `RatingsStore.notify` (src/ratings-store.js:208-220): for each applicable
key, invoke every subscribed callback with the source's try/catch in place;
the value is the sequence of invoked callback ids. -/
def notify (subs : String → List Callback) (key : String) (d : RatingsData) :
    List Nat :=
  (keysToNotify key d).flatMap (fun k => runCallbacks true (subs k))

/-- `RatingsStore.set` (src/ratings-store.js:171-191): cache the data under
the key and the derivable alias keys, then notify. -/
def rsSet (cache : String → Option RatingsData) (subs : String → List Callback)
    (key : String) (d : RatingsData) :
    (String → Option RatingsData) × List Nat :=
  let c1 := fun k => if k = key then some d else cache k
  let c2 := if jsTruthyS d.netflixId then
      (if netrotTag ++ d.netflixId.getD "" ≠ key then
        fun k => if k = netrotTag ++ d.netflixId.getD "" then some d else c1 k
       else c1)
    else c1
  let c3 := if jsTruthyS d.imdbId then
      fun k => if k = d.imdbId.getD "" then some d else c2 k
    else c2
  let c4 := if jsTruthyS d.normalizedTitle then
      fun k => if k = d.normalizedTitle.getD "" then some d else c3 k
    else c3
  (c4, notify subs key d)

/-- `pushUnique` preserves key-list de-duplication. -/
theorem pushUnique_nodup (l : List String) (k : String) (h : l.Nodup) :
    (pushUnique l k).Nodup := by
  unfold pushUnique
  split_ifs with hc
  · exact h
  · have hc' : k ∉ l := by simpa using hc
    simp [List.nodup_append, h, hc']

/-- With the source's try/catch in place, every callback in the list is
invoked, in order, whatever throws. -/
theorem runCallbacks_catching : ∀ cbs : List Callback,
    runCallbacks true cbs = cbs.map Callback.id := by
  intro cbs
  induction cbs with
  | nil => rfl
  | cons cb rest ih => simp [runCallbacks, ih]

/-! ## Claim C9: notification fan-out -/

/-- C9: `notify` iterates a de-duplicated key list and, for each applicable
key, invokes every subscribed callback synchronously in subscription order;
the invoked sequence is exactly all subscribers of all applicable keys —
independent of which callbacks throw, since a throw is caught (whereas
without the catch a throwing callback would cut the remaining invocations
short, as the final contrast shows).  `set()` delivers its update through
exactly this notification. -/
theorem C9_notify_fanout :
    (∀ (key : String) (d : RatingsData), (keysToNotify key d).Nodup) ∧
    (∀ (subs : String → List Callback) (key : String) (d : RatingsData),
      notify subs key d =
        (keysToNotify key d).flatMap (fun k => (subs k).map Callback.id)) ∧
    (∀ (cache : String → Option RatingsData) (subs : String → List Callback)
        (key : String) (d : RatingsData),
      (rsSet cache subs key d).2 = notify subs key d) ∧
    (runCallbacks false [⟨0, true⟩, ⟨1, false⟩] = [0] ∧
      runCallbacks true [⟨0, true⟩, ⟨1, false⟩] = [0, 1]) := by
  refine ⟨?_, ?_, ?_, ?_, ?_⟩
  · intro key d
    unfold keysToNotify
    split_ifs <;> (repeat' apply pushUnique_nodup) <;>
      exact List.nodup_singleton key
  · intro subs key d
    unfold notify
    congr 1
    funext k
    exact runCallbacks_catching (subs k)
  · intro cache subs key d
    rfl
  · rfl
  · rfl

/-! ## Rate limiter (src/background.js:291-321, src/cache-manager.js:258-298;
the two classes are identical in the fields and methods modelled here) -/

/-- The mutable state of a `RateLimiter`.  JS numbers are embedded as `Int`
for the token count (so that non-negativity is a theorem, not a modelling
assumption) and `Nat` milliseconds for times. -/
structure RateLimiterState where
  tokens : Int
  maxTokens : Int
  windowMs : Nat
  lastRefill : Nat
deriving DecidableEq

/-- The `RateLimiter` constructor (`new RateLimiter(maxRequests, windowMs)`). -/
def mkRateLimiter (maxRequests windowMs now : Nat) : RateLimiterState :=
  ⟨maxRequests, maxRequests, windowMs, now⟩

/-- `refillTokens` (src/background.js:312-320): once a full window has
elapsed, reset the bucket to exactly `maxTokens`. -/
def refillTokens (s : RateLimiterState) (now : Nat) : RateLimiterState :=
  if (s.windowMs : Int) ≤ (now : Int) - (s.lastRefill : Int) then
    { s with tokens := s.maxTokens, lastRefill := now }
  else s

/-- One attempt of `acquire()` (src/background.js:299-310): refill, then
consume a token when one is available; otherwise wait (the recursive retry is
a later attempt in the operation sequence).  Returns the new state and
whether a token was granted. -/
def acquireStep (s : RateLimiterState) (now : Nat) : RateLimiterState × Bool :=
  let s1 := refillTokens s now
  if 0 < s1.tokens then ({ s1 with tokens := s1.tokens - 1 }, true)
  else (s1, false)

/-- An operation on the rate limiter: an `acquire` attempt or a bare refill,
each at its own instant. -/
inductive RLOp where
  | acq (now : Nat)
  | refill (now : Nat)
deriving DecidableEq

/-- Apply one operation. -/
def applyRLOp (s : RateLimiterState) (op : RLOp) : RateLimiterState :=
  match op with
  | .acq now => (acquireStep s now).1
  | .refill now => refillTokens s now

/-- The token-count invariant `0 ≤ tokens ≤ maxTokens` (together with the
constancy of `maxTokens`) is preserved by every operation. -/
theorem applyRLOp_inv (s : RateLimiterState) (op : RLOp)
    (h : 0 ≤ s.tokens ∧ s.tokens ≤ s.maxTokens) :
    0 ≤ (applyRLOp s op).tokens ∧
      (applyRLOp s op).tokens ≤ (applyRLOp s op).maxTokens ∧
      (applyRLOp s op).maxTokens = s.maxTokens := by
  obtain ⟨h0, h1⟩ := h
  cases op with
  | acq now =>
    simp only [applyRLOp, acquireStep, refillTokens]
    split_ifs with hw ht <;> simp_all <;> omega
  | refill now =>
    simp only [applyRLOp, refillTokens]
    split_ifs with hw <;> simp_all <;> omega

/-! ## Claim C10: rate limiter token bounds -/

/-- C10: for a rate limiter constructed with any `maxRequests`, after any
sequence of `acquire` attempts and refills the token count stays within
`[0, maxTokens]`; an acquire attempt decrements only when the (refilled)
count is strictly positive, and a refill either leaves the count unchanged
or sets it to exactly `maxTokens`, never above. -/
theorem C10_rate_limiter_bounds :
    (∀ (maxRequests windowMs now0 : Nat) (ops : List RLOp),
      0 ≤ (ops.foldl applyRLOp (mkRateLimiter maxRequests windowMs now0)).tokens ∧
      (ops.foldl applyRLOp (mkRateLimiter maxRequests windowMs now0)).tokens ≤
        (maxRequests : Int)) ∧
    (∀ (s : RateLimiterState) (now : Nat),
      (acquireStep s now).1.tokens =
        (if 0 < (refillTokens s now).tokens then (refillTokens s now).tokens - 1
         else (refillTokens s now).tokens)) ∧
    (∀ (s : RateLimiterState) (now : Nat),
      (refillTokens s now).tokens = s.tokens ∨
        (refillTokens s now).tokens = s.maxTokens) := by
  refine ⟨?_, ?_, ?_⟩
  · intro maxRequests windowMs now0 ops
    have key : ∀ (l : List RLOp) (s : RateLimiterState),
        0 ≤ s.tokens ∧ s.tokens ≤ s.maxTokens →
        0 ≤ (l.foldl applyRLOp s).tokens ∧
          (l.foldl applyRLOp s).tokens ≤ (l.foldl applyRLOp s).maxTokens ∧
          (l.foldl applyRLOp s).maxTokens = s.maxTokens := by
      intro l
      induction l with
      | nil => intro s hs; exact ⟨hs.1, hs.2, rfl⟩
      | cons op rest ih =>
        intro s hs
        rw [List.foldl_cons]
        obtain ⟨h0, h1, h2⟩ := applyRLOp_inv s op hs
        obtain ⟨g0, g1, g2⟩ := ih (applyRLOp s op) ⟨h0, h1⟩
        exact ⟨g0, g1, by rw [g2, h2]⟩
    obtain ⟨g0, g1, g2⟩ := key ops (mkRateLimiter maxRequests windowMs now0)
      ⟨by simp [mkRateLimiter], by simp [mkRateLimiter]⟩
    refine ⟨g0, ?_⟩
    rw [← show (mkRateLimiter maxRequests windowMs now0).maxTokens =
      (maxRequests : Int) from rfl]
    rw [← g2]
    exact g1
  · intro s now
    simp only [acquireStep]
    split_ifs <;> rfl
  · intro s now
    simp only [refillTokens]
    split_ifs <;> simp

/-! ## Request coalescing in `handleFetchRatings` (src/background.js:368-455)

Each message-handler invocation for one fixed request key is a caller whose
execution splits into atomic segments at its `await` points:

* `start`: the synchronous prefix — `hasPendingRequest` check
  (src/background.js:376); if a promise is pending the caller attaches to it
  (`attached`), otherwise it proceeds into `await cacheManager.get(...)`
  (the storage read suspension, line 384);
* `awaitCache → awaitKey`: the cache read returned a miss; the handler
  suspends on `await chrome.storage.local.get(['omdbApiKey'])` (line 433);
* `awaitKey → fetching`: the handler synchronously starts `performFetch` and
  registers the promise via `setPendingRequest` (lines 446-448) — the
  external API call of that fetch is counted here, since the started fetch
  performs it;
* `fetching → done`: the fetch settles with a result and the `finally`
  clause deletes the pending entry (line 519);
* `attached → done`: an attached caller observes the settled result.

The scheduler picks which caller advances at each step, modelling the
cooperative event loop. -/

/-- The program counter of one caller. -/
inductive CallerPc where
  | start
  | awaitCache
  | awaitKey
  | fetching
  | attached
  | done
deriving DecidableEq

/-- The shared state for one request key: whether a fetch promise is
registered in the pending-request map, how many external API calls were
started, the settled result (if any), each caller's program counter and each
caller's observed result. -/
structure CoState where
  pending : Bool
  apiCalls : Nat
  resultVal : Option Nat
  pcs : List CallerPc
  observed : List (Option Nat)
deriving DecidableEq

/-- Advance caller `i` by one atomic segment. -/
def coStep (s : CoState) (i : Nat) : CoState :=
  match s.pcs[i]? with
  | none => s
  | some pc =>
    match pc with
    | .start =>
      if s.pending then { s with pcs := s.pcs.set i .attached }
      else { s with pcs := s.pcs.set i .awaitCache }
    | .awaitCache => { s with pcs := s.pcs.set i .awaitKey }
    | .awaitKey =>
      { s with
          pcs := s.pcs.set i .fetching
          pending := true
          apiCalls := s.apiCalls + 1 }
    | .fetching =>
      { s with
          pcs := s.pcs.set i .done
          pending := false
          resultVal := some 0
          observed := s.observed.set i (some 0) }
    | .attached =>
      match s.resultVal with
      | some v =>
        { s with pcs := s.pcs.set i .done, observed := s.observed.set i (some v) }
      | none => s
    | .done => s

/-- Run a schedule (a list of caller indices). -/
def coRun (s : CoState) (sched : List Nat) : CoState :=
  sched.foldl coStep s

/-- `n` callers about to issue FETCH_RATINGS for the same request key, no
promise pending, no API call made. -/
def coInit (n : Nat) : CoState :=
  ⟨false, 0, none, List.replicate n .start, List.replicate n none⟩

/-! ## Claim C3: request coalescing -/

/-- C3 counterexample: two callers for the same request key, interleaved so
that both pass the pending-request check before either registers its promise
(the check and the registration are separated by the cache-read and API-key
suspension points), make two external API calls — while no result has
resolved.  This refutes "at most one external API call". -/
theorem C3_counterexample :
    (coRun (coInit 2) [0, 1, 0, 1, 0, 1]).apiCalls = 2 ∧
    (coRun (coInit 2) [0, 1, 0, 1, 0, 1]).resultVal = none := by
  constructor
  · decide
  · decide

/-- C3 (amended): a caller whose pending-request check runs while a fetch
promise is registered attaches to it and starts no API call; and in the
schedule where the second caller arrives after the first has registered its
promise, exactly one API call is made and both callers observe the same
resolved result.  (At-most-one is only guaranteed for callers arriving after
a registration, as `C3_counterexample` shows.) -/
theorem C3_coalescing :
    (∀ (s : CoState) (i : Nat), s.pending = true → s.pcs[i]? = some .start →
      (coStep s i).apiCalls = s.apiCalls ∧
      (coStep s i).pcs[i]? = some CallerPc.attached ∧
      (coStep s i).pending = true) ∧
    ((coRun (coInit 2) [0, 0, 0, 1, 0, 1]).apiCalls = 1 ∧
      (coRun (coInit 2) [0, 0, 0, 1, 0, 1]).observed = [some 0, some 0] ∧
      (coRun (coInit 2) [0, 0, 0, 1, 0, 1]).pcs =
        [CallerPc.done, CallerPc.done]) := by
  constructor
  · intro s i hp hpc
    have hlen : i < s.pcs.length := by
      rcases List.getElem?_eq_some.1 hpc with ⟨h, -⟩
      exact h
    refine ⟨?_, ?_, ?_⟩
    · simp [coStep, hpc, hp]
    · simp [coStep, hpc, hp, List.getElem?_set_self, hlen]
    · simp [coStep, hpc, hp]
  · refine ⟨by decide, by decide, by decide⟩

/-- C3 witness: after the first caller has registered its fetch, the second
caller's check attaches without a new API call, at a concrete state. -/
theorem C3_coalescing_witness :
    (coStep (coRun (coInit 2) [0, 0, 0]) 1).apiCalls =
      (coRun (coInit 2) [0, 0, 0]).apiCalls ∧
    (coStep (coRun (coInit 2) [0, 0, 0]) 1).pcs[1]? =
      some CallerPc.attached ∧
    (coStep (coRun (coInit 2) [0, 0, 0]) 1).pending = true :=
  C3_coalescing.1 (coRun (coInit 2) [0, 0, 0]) 1 (by decide) (by decide)
